import Mathlib

/-!
Verification of the ijhandlealloc handle allocators (ijha_h32, the legacy
ijha_fifo_h32, the dense/sparse layer ijha_fifo_ds_h32i32 and the sparse set
ijss) against their natural-language specification.

The C sources are shallowly embedded: every 32-bit unsigned word is a `Nat`
that the operations keep below `2^32`; the record region handed to the
allocator is a `List` of slot words (the byte-level stride/offset machinery
addresses exactly one 32-bit handle word per record, so the region is modelled
as one word per slot); C unsigned arithmetic that may wrap is written with
explicit `% 2^32` helpers.
-/

set_option maxRecDepth 10000

/-- Modulus helper: arithmetic on C `unsigned` wraps at `2^32`. -/
def U32MOD : Nat := 4294967296

/-- C unsigned 32-bit addition. -/
def uadd32 (a b : Nat) : Nat := (a + b) % U32MOD

/-- C unsigned 32-bit subtraction (two's complement wrap). -/
def usub32 (a b : Nat) : Nat := (a % U32MOD + (U32MOD - b % U32MOD)) % U32MOD

/-- C bitwise complement `~x` on a 32-bit unsigned value. -/
def compl32 (x : Nat) : Nat := 4294967295 ^^^ x

/- ## Generic bit-level helper lemmas -/

theorem U32MOD_eq_pow : U32MOD = 2 ^ 32 := by norm_num [U32MOD]

theorem full32_eq_pow_sub_one : (4294967295 : Nat) = 2 ^ 32 - 1 := by norm_num

theorem land_full32_of_lt {x : Nat} (h : x < U32MOD) : x &&& 4294967295 = x := by
  rw [full32_eq_pow_sub_one]
  exact Nat.and_pow_two_sub_one_of_lt_two_pow (U32MOD_eq_pow ▸ h)

theorem compl32_lt {x : Nat} (hx : x < U32MOD) : compl32 x < U32MOD := by
  rw [U32MOD_eq_pow]
  exact Nat.xor_lt_two_pow (by norm_num) (U32MOD_eq_pow ▸ hx)

/-- A value below the 32-bit bound has no bits at positions 32 and above. -/
theorem testBit_ge32_false {x i : Nat} (hx : x < U32MOD) (hi : 32 ≤ i) :
    x.testBit i = false := by
  apply Nat.testBit_lt_two_pow
  calc x < U32MOD := hx
    _ = 2 ^ 32 := U32MOD_eq_pow
    _ ≤ 2 ^ i := Nat.pow_le_pow_right (by norm_num) hi

/-- Complementing a 32-bit value clears exactly its bits. -/
theorem land_compl32_self {x : Nat} (hx : x < U32MOD) : compl32 x &&& x = 0 := by
  apply Nat.eq_of_testBit_eq
  intro i
  simp only [compl32, Nat.testBit_and, Nat.testBit_xor, Nat.zero_testBit]
  by_cases hi : 32 ≤ i
  · simp [testBit_ge32_false hx hi, testBit_ge32_false (show (4294967295:Nat) < U32MOD by norm_num [U32MOD]) hi]
  · rw [full32_eq_pow_sub_one, Nat.testBit_two_pow_sub_one]
    have : decide (i < 32) = true := by simp; omega
    rw [this]
    cases hxb : x.testBit i <;> simp

theorem land_compl32_of_disjoint {a b : Nat} (hab : a &&& b = 0) :
    a &&& compl32 b = a &&& 4294967295 := by
  apply Nat.eq_of_testBit_eq
  intro i
  have hdis : (a.testBit i && b.testBit i) = false := by
    have := congrArg (fun n => Nat.testBit n i) hab
    simp only [Nat.testBit_and, Nat.zero_testBit] at this
    exact this
  simp only [compl32, Nat.testBit_and, Nat.testBit_xor]
  cases ha : a.testBit i <;> cases hbb : b.testBit i <;> simp_all

/-- Disjointness transfers along sub-masks: if `x` lies inside mask `m` and
`m` is disjoint from `b`, then `x` is disjoint from `b`. -/
theorem land_eq_zero_of_submask {x m b : Nat} (hx : x &&& m = x) (hmb : m &&& b = 0) :
    x &&& b = 0 := by
  calc x &&& b = (x &&& m) &&& b := by rw [hx]
    _ = x &&& (m &&& b) := Nat.and_assoc _ _ _
    _ = 0 := by rw [hmb, Nat.and_zero]

/-- An all-ones mask absorbs any value bounded by it. -/
theorem land_mask_absorb {x m : Nat} (hm : m + 1 = 2 ^ (m + 1).log2) (hx : x ≤ m) :
    x &&& m = x := by
  have hmeq : m = 2 ^ (m + 1).log2 - 1 := by omega
  rw [hmeq]
  exact Nat.and_pow_two_sub_one_of_lt_two_pow (by omega)

theorem lor32_lt {a b : Nat} (ha : a < U32MOD) (hb : b < U32MOD) : a ||| b < U32MOD := by
  rw [U32MOD_eq_pow] at *
  exact Nat.or_lt_two_pow ha hb

theorem land32_lt_left {a b : Nat} (ha : a < U32MOD) : a &&& b < U32MOD :=
  Nat.lt_of_le_of_lt Nat.and_le_left ha

/- ## The ijha_h32 allocator (src/ijha_h32.h)

`struct ijha_h32`: the `handles` pointer becomes the list of per-slot 32-bit
words; the acquire/release function pointers are realised by dispatching on
the stored flags exactly as `ijha_h32_initex` assigns them. -/

structure ijha_h32 where
  handles : List Nat
  flags_num_userflag_bits : Nat
  size : Nat
  capacity : Nat
  capacity_mask : Nat
  generation_mask : Nat
  userflags_mask : Nat
  in_use_bit : Nat
  freelist_enqueue_index : Nat
  freelist_dequeue_index : Nat
deriving Repr, DecidableEq

/-- Value of `IJHA_H32_INVALID_INDEX = (unsigned)-1`. -/
def IJHA_H32_INVALID_INDEX : Nat := 4294967295

/-- Slot word read: `*ijha_h32_handle_info_at(self, index)`. -/
def ijha_h32_slot (A : ijha_h32) (i : Nat) : Nat := A.handles.getD i 0

/-- Macro `ijha_h32_is_fifo`: `(flags & IJHA_H32_INIT_FIFO) == IJHA_H32_INIT_FIFO`
with `IJHA_H32_INIT_FIFO = 1 << 7`. -/
def ijha_h32_is_fifo (A : ijha_h32) : Bool :=
  A.flags_num_userflag_bits &&& 128 == 128

/-- Macro `ijha_h32_capacity`: usable handles. -/
def ijha_h32_capacity (A : ijha_h32) : Nat :=
  A.capacity - (if A.flags_num_userflag_bits &&& (128 ||| 256) ≠ 0 then 1 else 0)

/-- Macro `ijha_h32_index`: `capacity_mask & handle`. -/
def ijha_h32_index (A : ijha_h32) (handle : Nat) : Nat :=
  A.capacity_mask &&& handle

/-- Macro `ijha_h32_in_use`: `handle & in_use_bit` (checks the passed-in
handle, not the stored one). -/
def ijha_h32_in_use (A : ijha_h32) (handle : Nat) : Nat :=
  handle &&& A.in_use_bit

/-- Macro `ijha_h32_valid_mask`. -/
def ijha_h32_valid_mask (A : ijha_h32) (handle handlemask : Nat) : Bool :=
  decide (A.capacity > (handle &&& A.capacity_mask)) &&
  (ijha_h32_in_use A handle != 0) &&
  ((ijha_h32_slot A (handle &&& A.capacity_mask) &&& handlemask) == (handle &&& handlemask))

/-- Macro `ijha_h32_valid`: `ijha_h32_valid_mask(self, handle, 0xffffffffu)`. -/
def ijha_h32_valid (A : ijha_h32) (handle : Nat) : Bool :=
  ijha_h32_valid_mask A handle 4294967295

/-- Macro `ijha_h32_userflags`: the stored word of the handle's slot masked by
`userflags_mask`. -/
def ijha_h32_userflags (A : ijha_h32) (handle_or_index : Nat) : Nat :=
  ijha_h32_slot A (ijha_h32_index A handle_or_index) &&& A.userflags_mask

/-- Macro `ijha_h32__generation_add`: first generation bit depends on where
the in-use bit lives (`IJHA_H32_INIT_DONT_USE_MSB_AS_IN_USE_BIT = 1 << 9`). -/
def ijha_h32__generation_add (A : ijha_h32) : Nat :=
  if A.flags_num_userflag_bits &&& 512 ≠ 0 then
    ((A.capacity_mask + 1) <<< 1) % U32MOD
  else
    (A.capacity_mask + 1) % U32MOD

/-- Function `ijha_h32__acquire_userflags_lifo_fifo`. Returns the new state,
the value written to `*handle_out`, and the returned index. -/
def ijha_h32__acquire_userflags_lifo_fifo (A : ijha_h32) (userflags : Nat) :
    ijha_h32 × Nat × Nat :=
  let current_cursor := A.freelist_dequeue_index
  let in_use_bit := A.in_use_bit
  let maxnhandles := usub32 A.capacity (if ijha_h32_is_fifo A then 1 else 0)
  if A.size == maxnhandles then
    (A, 0, IJHA_H32_INVALID_INDEX)
  else
    let current_handle := ijha_h32_slot A current_cursor
    let generation_mask := A.generation_mask
    let generation_to_add := ijha_h32__generation_add A
    let new_cursor := current_handle &&& A.capacity_mask
    let new_generation := generation_mask &&& uadd32 current_handle generation_to_add
    let new_handle := userflags ||| new_generation ||| in_use_bit ||| current_cursor
    ({ A with handles := A.handles.set current_cursor new_handle,
              freelist_dequeue_index := new_cursor,
              size := uadd32 A.size 1 },
     new_handle, current_cursor)

/-- Shared guard of the release functions: the C code takes
`stored_handle = (capacity > idx && (handle & in_use_bit)) ? info_at(idx) : 0`
and proceeds only `if (stored_handle && *stored_handle == handle)`. -/
def ijha_h32ReleaseGuard (A : ijha_h32) (handle : Nat) : Prop :=
  A.capacity > (handle &&& A.capacity_mask) ∧ handle &&& A.in_use_bit ≠ 0 ∧
    ijha_h32_slot A (handle &&& A.capacity_mask) = handle

instance (A : ijha_h32) (handle : Nat) : Decidable (ijha_h32ReleaseGuard A handle) :=
  inferInstanceAs (Decidable (A.capacity > (handle &&& A.capacity_mask) ∧
    handle &&& A.in_use_bit ≠ 0 ∧ ijha_h32_slot A (handle &&& A.capacity_mask) = handle))

/-- Function `ijha_h32__release_fifo`. Returns the new state and the result. -/
def ijha_h32__release_fifo (A : ijha_h32) (handle : Nat) : ijha_h32 × Nat :=
  let idx := handle &&& A.capacity_mask
  if ijha_h32ReleaseGuard A handle then
    let cleared := ijha_h32_slot A idx &&& compl32 A.in_use_bit
    let handles1 := A.handles.set idx cleared
    let A1 := { A with handles := handles1 }
    let tail := ijha_h32_slot A1 A.freelist_enqueue_index
    let tail_new := (tail &&& compl32 A.capacity_mask) ||| idx
    ({ A1 with handles := A1.handles.set A.freelist_enqueue_index tail_new,
               freelist_enqueue_index := idx,
               size := usub32 A.size 1 },
     idx)
  else
    (A, IJHA_H32_INVALID_INDEX)

/-- Function `ijha_h32__release_lifo`. Returns the new state and the result. -/
def ijha_h32__release_lifo (A : ijha_h32) (handle : Nat) : ijha_h32 × Nat :=
  let idx := handle &&& A.capacity_mask
  if ijha_h32ReleaseGuard A handle then
    let current_cursor := A.freelist_dequeue_index
    let new_word := compl32 A.in_use_bit &&& ((handle &&& compl32 A.capacity_mask) ||| current_cursor)
    ({ A with handles := A.handles.set idx new_word,
              freelist_dequeue_index := idx,
              size := usub32 A.size 1 },
     idx)
  else
    (A, IJHA_H32_INVALID_INDEX)

/-- Serial-policy release dispatch: `ijha_h32_initex` installs
`ijha_h32__release_lifo` exactly when `(flags & IJHA_H32_INIT_LIFOFIFO_MASK)
== IJHA_H32_INIT_LIFO`, otherwise `ijha_h32__release_fifo`. -/
def ijha_h32_release_serial (A : ijha_h32) (handle : Nat) : ijha_h32 × Nat :=
  if A.flags_num_userflag_bits &&& 192 == 64 then
    ijha_h32__release_lifo A handle
  else
    ijha_h32__release_fifo A handle

/-- Loop body of `ijha_h32__num_bits`, with explicit fuel: the C argument is
a 32-bit `unsigned`, so 32 halvings always drain it to zero. -/
def ijha_h32__num_bits_go : Nat → Nat → Nat
  | 0, _ => 0
  | fuel + 1, n => if n / 2 = 0 then 0 else ijha_h32__num_bits_go fuel (n / 2) + 1

/-- Function `ijha_h32__num_bits`: `while (n >>= 1) res++`. -/
def ijha_h32__num_bits (n : Nat) : Nat := ijha_h32__num_bits_go 32 n

/-- Macro `ijha_h32__roundup`: round up to the next power of two, in wrapping
unsigned arithmetic. -/
def ijha_h32__roundup (x : Nat) : Nat :=
  let x := usub32 x 1
  let x := x ||| (x >>> 1)
  let x := x ||| (x >>> 2)
  let x := x ||| (x >>> 4)
  let x := x ||| (x >>> 8)
  let x := x ||| (x >>> 16)
  uadd32 x 1

/-- Function `ijha_h32_reset`. Writes every slot `i` of the record region
(`i` in `[0, capacity)`) with `(i+1) | generation_mask`, then overwrites the
last slot (`capacity-1`) with `0 | generation_mask`; thread-safe instances
reserve slot 0 as sentinel by starting the dequeue index at 1. -/
def ijha_h32_reset (A : ijha_h32) : ijha_h32 :=
  let generation_mask := A.generation_mask
  let handles := ((List.range A.capacity).map fun i => (i + 1) ||| generation_mask).set
      (A.capacity - 1) (0 ||| generation_mask)
  { A with size := 0,
           freelist_dequeue_index :=
             if A.flags_num_userflag_bits &&& 256 ≠ 0 then 1 else 0,
           freelist_enqueue_index := usub32 A.capacity 1,
           handles := handles }

/-- Function `ijha_h32_initex`. `memory` is the caller-provided record region
(one word per slot). Returns the initialized state plus the `init_res` error
bitmask; the acquire/release function-pointer installation is captured by the
flag word (`IJHA_H32_INIT_LIFO` is or-ed in for the thread-safe branch) that
`ijha_h32_release_serial` and `ijha_h32_is_fifo` dispatch on. -/
def ijha_h32_initex (max_num_handles num_userflag_bits non_inline_handle_size_bytes
    handle_offset userdata_size_in_bytes_per_item ijha_flags : Nat)
    (memory : List Nat) : ijha_h32 × Nat :=
  let res0 := if userdata_size_in_bytes_per_item &&& 0xffff0000 ≠ 0 then 4 else 0
  let res1 := if non_inline_handle_size_bytes &&& 0xffffff00 ≠ 0 then res0 ||| 16 else res0
  let res2 := if handle_offset &&& 0xffffff00 ≠ 0 then res1 ||| 8 else res1
  let res3 := if ijha_flags &&& 31 ≠ 0 then res2 ||| 32 else res2
  let flags_num_userflag_bits := ijha_flags ||| num_userflag_bits
  let rounded := ijha_h32__roundup max_num_handles
  let capacity_mask := usub32 rounded 1
  let userflags_mask0 :=
    if num_userflag_bits ≠ 0 then (4294967295 <<< (32 - num_userflag_bits)) % U32MOD else 0
  let generation_mask0 := compl32 (capacity_mask ||| userflags_mask0)
  let no_msb := ijha_flags &&& 512 ≠ 0
  let in_use_bit := if no_msb then uadd32 capacity_mask 1 else 0x80000000
  let generation_mask :=
    if no_msb then generation_mask0 &&& ((generation_mask0 <<< 1) % U32MOD)
    else (generation_mask0 >>> 1) &&& compl32 capacity_mask
  let userflags_mask := if no_msb then userflags_mask0 else userflags_mask0 >>> 1
  let res4 :=
    if uadd32 (usub32 (ijha_h32__num_bits rounded) 1) num_userflag_bits ≥ 32 then
      res3 ||| 1
    else res3
  let ts := ijha_flags &&& 256 ≠ 0
  let ts_fifo := ts ∧ (ijha_flags &&& 192 == 128)
  let res5 := if ts_fifo then res4 ||| 2 else res4
  let flags_final := if ts ∧ ¬ts_fifo then flags_num_userflag_bits ||| 64
                     else flags_num_userflag_bits
  let A : ijha_h32 :=
    { handles := memory,
      flags_num_userflag_bits := flags_final,
      size := 0,
      capacity := max_num_handles,
      capacity_mask := capacity_mask,
      generation_mask := generation_mask,
      userflags_mask := userflags_mask,
      in_use_bit := in_use_bit,
      freelist_enqueue_index := 0,
      freelist_dequeue_index := 0 }
  if res5 = 0 then (ijha_h32_reset A, 0) else (A, res5)

/- ## Claim C1 and claim C10 -/

/-- Claim C1: for an allocator whose stored slot words are 32-bit values and
any 32-bit handle `h`, `ijha_h32_valid` returns true iff the three spec
conditions hold: masked index below capacity, in-use bit set in `h` itself,
and the stored word at the masked index bit-for-bit equal to `h`. -/
theorem ijha_h32_valid_iff (A : ijha_h32) (h : Nat)
    (hh : h < U32MOD)
    (hslot : ijha_h32_slot A (h &&& A.capacity_mask) < U32MOD) :
    ijha_h32_valid A h = true ↔
      ((h &&& A.capacity_mask) < A.capacity ∧
       h &&& A.in_use_bit ≠ 0 ∧
       ijha_h32_slot A (h &&& A.capacity_mask) = h) := by
  unfold ijha_h32_valid ijha_h32_valid_mask ijha_h32_in_use
  rw [land_full32_of_lt hh, land_full32_of_lt hslot]
  simp [and_assoc]

/-- Witness for C1 at a concrete allocator: the freshly initialized state of
`ijha_h32_initex(4, 0, 4, 0, 0, LIFO)` together with handle `0x80000000`. -/
theorem ijha_h32_valid_iff_witness :
    (0x80000000 : Nat) < U32MOD ∧
    ijha_h32_slot (ijha_h32_initex 4 0 4 0 0 64 (List.replicate 4 0)).1
        (0x80000000 &&& (ijha_h32_initex 4 0 4 0 0 64 (List.replicate 4 0)).1.capacity_mask) < U32MOD ∧
    (ijha_h32_valid (ijha_h32_initex 4 0 4 0 0 64 (List.replicate 4 0)).1 0x80000000 = true ↔
      ((0x80000000 &&& (ijha_h32_initex 4 0 4 0 0 64 (List.replicate 4 0)).1.capacity_mask) <
          (ijha_h32_initex 4 0 4 0 0 64 (List.replicate 4 0)).1.capacity ∧
       0x80000000 &&& (ijha_h32_initex 4 0 4 0 0 64 (List.replicate 4 0)).1.in_use_bit ≠ 0 ∧
       ijha_h32_slot (ijha_h32_initex 4 0 4 0 0 64 (List.replicate 4 0)).1
          (0x80000000 &&& (ijha_h32_initex 4 0 4 0 0 64 (List.replicate 4 0)).1.capacity_mask) =
          0x80000000)) :=
  ⟨by decide, by decide,
   ijha_h32_valid_iff (ijha_h32_initex 4 0 4 0 0 64 (List.replicate 4 0)).1 0x80000000
     (by decide) (by decide)⟩

/-- Claim C10: in every allocator state whatsoever (either bit layout, any
mask configuration), the all-zero handle is never valid and its in-use query
yields 0, because validity requires a nonzero in-use bit in the queried
handle itself. -/
theorem ijha_h32_zero_handle_never_valid (A : ijha_h32) :
    ijha_h32_valid A 0 = false ∧ ijha_h32_in_use A 0 = 0 := by
  have hz : ijha_h32_in_use A 0 = 0 := by
    simp [ijha_h32_in_use, Nat.zero_and]
  refine ⟨?_, hz⟩
  unfold ijha_h32_valid ijha_h32_valid_mask
  rw [hz]
  simp

/- ## Claim C2: returned handles under the default layout -/

/-- If bit `k` of `x` is set then masking `x` with `2^k` yields `2^k`. -/
theorem land_two_pow_of_testBit {x k : Nat} (h : x.testBit k = true) :
    x &&& 2 ^ k = 2 ^ k := by
  apply Nat.eq_of_testBit_eq
  intro i
  simp only [Nat.testBit_and, Nat.testBit_two_pow]
  by_cases hik : k = i
  · subst hik; simp [h]
  · simp [hik]

/-- Configuration for the C2 counterexample: `ijha_h32_initex(max_num_handles=2,
num_userflag_bits=28, non_inline=4, offset=0, userdata=0, flags=LIFO)`.
This is a default-layout allocator with 2 generation bits
(`generation_mask = 6`). -/
def ijhaC2start : ijha_h32 × Nat := ijha_h32_initex 2 28 4 0 0 64 (List.replicate 2 0)

/-- One acquire with all userflag bits set (`userflags = userflags_mask =
0x7FFFFFF8`, a legal argument). -/
def ijhaC2acq (A : ijha_h32) : ijha_h32 × Nat × Nat :=
  ijha_h32__acquire_userflags_lifo_fifo A 2147483640

/-- Release the handle just produced, then acquire the slot again. -/
def ijhaC2cycle (s : ijha_h32 × Nat × Nat) : ijha_h32 × Nat × Nat :=
  ijhaC2acq (ijha_h32_release_serial s.1 s.2.1).1

/-- The state after: acquire, acquire, then three release/re-acquire cycles of
the second slot's handle. -/
def ijhaC2final : ijha_h32 × Nat × Nat :=
  ijhaC2cycle (ijhaC2cycle (ijhaC2cycle (ijhaC2acq (ijhaC2acq ijhaC2start.1).1)))

/-- Claim C2, counterexample: an `ijha_h32` allocator initialized with the
default layout (in-use bit in the MSB) and 2 generation bits, after a concrete
sequence of acquires and releases, returns the handle `0xFFFFFFFF` from a
successful acquire - `ijha_h32` does not skip the generation values `0` and
full-mask, contrary to the claim. -/
theorem ijha_h32_returns_all_ones_handle :
    ijhaC2start.2 = 0 ∧
    ijhaC2start.1.flags_num_userflag_bits &&& 512 = 0 ∧
    ijhaC2start.1.in_use_bit = 2147483648 ∧
    ijhaC2start.1.generation_mask = 6 ∧
    ijhaC2final.2.2 ≠ IJHA_H32_INVALID_INDEX ∧
    ijhaC2final.2.1 = 4294967295 := by
  refine ⟨by decide, by decide, by decide, by decide, by decide, by decide⟩

/-- Claim C2 as amended: for every allocator with the default layout (in-use
bit `0x80000000` in the MSB), the handle written by a successful acquire has
the MSB set and hence is never `0`; `ijha_h32` does not reserve generation
values, so `0xFFFFFFFF` remains reachable (the skip-and-bump guarantee lives
in the legacy `ijha_fifo_h32` allocator instead). -/
theorem ijha_h32_acquire_handle_msb_nonzero (A : ijha_h32) (userflags : Nat)
    (hmsb : A.in_use_bit = 2147483648)
    (hok : (ijha_h32__acquire_userflags_lifo_fifo A userflags).2.2 ≠ IJHA_H32_INVALID_INDEX) :
    (ijha_h32__acquire_userflags_lifo_fifo A userflags).2.1 &&& 2147483648 = 2147483648 ∧
    (ijha_h32__acquire_userflags_lifo_fifo A userflags).2.1 ≠ 0 := by
  unfold ijha_h32__acquire_userflags_lifo_fifo at *
  by_cases hfull : A.size = usub32 A.capacity (if ijha_h32_is_fifo A then 1 else 0)
  · simp only [hfull] at hok
    simp at hok
  · simp only [beq_iff_eq, hfull, if_false] at hok ⊢
    have hpow : (2147483648 : Nat) = 2 ^ 31 := by norm_num
    have hbit : ((userflags |||
        (A.generation_mask &&& uadd32 (ijha_h32_slot A A.freelist_dequeue_index)
          (ijha_h32__generation_add A)) ||| A.in_use_bit |||
        A.freelist_dequeue_index).testBit 31) = true := by
      have h31 : Nat.testBit 2147483648 31 = true := by decide
      simp only [Nat.testBit_or, hmsb]
      simp [h31]
    constructor
    · simpa [hpow] using land_two_pow_of_testBit hbit
    · intro hzero
      rw [hzero] at hbit
      simp at hbit

/-- Witness for the amended C2 at `ijha_h32_initex(4, 0, 4, 0, 0, LIFO)` with
`userflags = 0`. -/
theorem ijha_h32_acquire_handle_msb_nonzero_witness :
    (ijha_h32_initex 4 0 4 0 0 64 (List.replicate 4 0)).1.in_use_bit = 2147483648 ∧
    (ijha_h32__acquire_userflags_lifo_fifo
        (ijha_h32_initex 4 0 4 0 0 64 (List.replicate 4 0)).1 0).2.2 ≠ IJHA_H32_INVALID_INDEX ∧
    ((ijha_h32__acquire_userflags_lifo_fifo
        (ijha_h32_initex 4 0 4 0 0 64 (List.replicate 4 0)).1 0).2.1 &&& 2147483648 = 2147483648 ∧
     (ijha_h32__acquire_userflags_lifo_fifo
        (ijha_h32_initex 4 0 4 0 0 64 (List.replicate 4 0)).1 0).2.1 ≠ 0) :=
  ⟨by decide, by decide,
   ijha_h32_acquire_handle_msb_nonzero
     (ijha_h32_initex 4 0 4 0 0 64 (List.replicate 4 0)).1 0 (by decide) (by decide)⟩

/- ## Claim C5: post-reset state -/

/-- Configuration for the C5 counterexample: `ijha_h32_initex(5, 0, 4, 0, 0,
LIFO)` - a capacity that is not a power of two. -/
def ijhaC5start : ijha_h32 × Nat := ijha_h32_initex 5 0 4 0 0 64 (List.replicate 5 0)

/-- Claim C5, counterexample: after a successful init of a non-thread-safe
allocator with `max_num_handles = 5`, the freelist enqueue index is
`capacity - 1 = 4`, not `capacity_rounded - 1 = next_pow2(5) - 1 = 7` as the
claim states (slot 7 does not even exist: the record region has 5 slots). -/
theorem ijha_h32_reset_enqueue_not_rounded :
    ijhaC5start.2 = 0 ∧
    ijhaC5start.1.freelist_enqueue_index = 4 ∧
    usub32 (ijha_h32__roundup 5) 1 = 7 ∧
    ijhaC5start.1.freelist_enqueue_index ≠ usub32 (ijha_h32__roundup 5) 1 ∧
    ijhaC5start.1.handles.length = 5 := by
  refine ⟨by decide, by decide, by decide, by decide, by decide⟩

/-- Claim C5 as amended: after `ijha_h32_reset` of an allocator with
`1 ≤ capacity < 2^32`, `size = 0`, `freelist_dequeue = 0` (or `1` for the
thread-safe variant, which reserves slot 0 as sentinel),
`freelist_enqueue = capacity - 1` (the requested capacity, not the rounded
one), every slot `i < capacity - 1` stores `(i+1) | generation_mask` as its
free-link word, and the last slot (`capacity - 1`) wraps to
`0 | generation_mask`. -/
theorem ijha_h32_reset_state (A : ijha_h32)
    (hcap1 : 1 ≤ A.capacity) (hcap2 : A.capacity < U32MOD) :
    (ijha_h32_reset A).size = 0 ∧
    (ijha_h32_reset A).freelist_dequeue_index =
      (if A.flags_num_userflag_bits &&& 256 ≠ 0 then 1 else 0) ∧
    (ijha_h32_reset A).freelist_enqueue_index = A.capacity - 1 ∧
    (∀ i, i + 1 < A.capacity →
      ijha_h32_slot (ijha_h32_reset A) i = (i + 1) ||| A.generation_mask) ∧
    ijha_h32_slot (ijha_h32_reset A) (A.capacity - 1) = 0 ||| A.generation_mask := by
  refine ⟨rfl, rfl, ?_, ?_, ?_⟩
  · show usub32 A.capacity 1 = A.capacity - 1
    have hc : A.capacity < 4294967296 := by simpa [U32MOD] using hcap2
    simp only [usub32, U32MOD]
    omega
  · intro i hi
    show (((List.range A.capacity).map fun j => (j + 1) ||| A.generation_mask).set
        (A.capacity - 1) (0 ||| A.generation_mask)).getD i 0 = (i + 1) ||| A.generation_mask
    rw [List.getD_eq_getElem?_getD, List.getElem?_set_ne (by omega), List.getElem?_map,
      List.getElem?_range (by omega)]
    rfl
  · show (((List.range A.capacity).map fun j => (j + 1) ||| A.generation_mask).set
        (A.capacity - 1) (0 ||| A.generation_mask)).getD (A.capacity - 1) 0 =
        0 ||| A.generation_mask
    rw [List.getD_eq_getElem?_getD, List.getElem?_set_self]
    · rfl
    · simp; omega

/-- Witness for the amended C5 at the thread-safe instance
`ijha_h32_initex(5, 0, 4, 0, 0, THREADSAFE|LIFO)`. -/
theorem ijha_h32_reset_state_witness :
    1 ≤ (ijha_h32_initex 5 0 4 0 0 320 (List.replicate 5 0)).1.capacity ∧
    (ijha_h32_reset (ijha_h32_initex 5 0 4 0 0 320 (List.replicate 5 0)).1).freelist_dequeue_index =
      (if (ijha_h32_initex 5 0 4 0 0 320 (List.replicate 5 0)).1.flags_num_userflag_bits &&& 256 ≠ 0
       then 1 else 0) ∧
    (ijha_h32_reset (ijha_h32_initex 5 0 4 0 0 320 (List.replicate 5 0)).1).freelist_enqueue_index =
      (ijha_h32_initex 5 0 4 0 0 320 (List.replicate 5 0)).1.capacity - 1 :=
  ⟨by decide,
   ((ijha_h32_reset_state (ijha_h32_initex 5 0 4 0 0 320 (List.replicate 5 0)).1
      (by decide) (by decide)).2.1),
   ((ijha_h32_reset_state (ijha_h32_initex 5 0 4 0 0 320 (List.replicate 5 0)).1
      (by decide) (by decide)).2.2.1)⟩

/- ## Claim C6: the init-time configuration check -/

/-- The C6 failing input: `ijha_h32_initex(max_num_handles=2,
num_userflag_bits=31, non_inline=4, offset=0, userdata=0, flags=LIFO)`. -/
def ijhaC6start : ijha_h32 × Nat := ijha_h32_initex 2 31 4 0 0 64 (List.replicate 2 0)

/-- First acquire on the C6 failing configuration, with the legal userflags
value `1` (`1 & userflags_mask == 1` there). -/
def ijhaC6acq : ijha_h32 × Nat × Nat :=
  ijha_h32__acquire_userflags_lifo_fifo ijhaC6start.1 1

/-- Claim C6 records a code bug: the claim (and spec) requires the
`CONFIGURATION_UNSUPPORTED` bit whenever `log2(capacity_rounded) + K >= 32`,
but the code tests `(num_bits(rounded) - 1) + K >= 32` in wrapping unsigned
arithmetic. At `max_num_handles = 2, K = 31` we have `log2(2) + 31 = 32`, yet
`ijha_h32_initex` returns `NO_ERROR`; the accepted configuration is truly
broken - its `userflags_mask` overlaps `capacity_mask`, and a freshly
acquired handle immediately fails `ijha_h32_valid`, contradicting the
library's own documented guarantee and its test-suite pattern. In the other
direction, at `max_num_handles = 1, K = 0` the unsigned wrap of
`num_bits(1) - 1` sets the error bit even though `log2(1) + 0 = 0 < 32`. -/
theorem ijha_h32_initex_configuration_check_bug :
    ijha_h32__num_bits (ijha_h32__roundup 2) + 31 ≥ 32 ∧
    ijhaC6start.2 &&& 1 = 0 ∧
    ijhaC6start.2 = 0 ∧
    ijhaC6start.1.userflags_mask &&& ijhaC6start.1.capacity_mask ≠ 0 ∧
    ijhaC6acq.2.2 ≠ IJHA_H32_INVALID_INDEX ∧
    ijha_h32_valid ijhaC6acq.1 ijhaC6acq.2.1 = false ∧
    ijha_h32__num_bits (ijha_h32__roundup 1) + 0 < 32 ∧
    (ijha_h32_initex 1 0 4 0 0 64 (List.replicate 1 0)).2 &&& 1 = 1 := by
  refine ⟨by decide, by decide, by decide, by decide, by decide, by decide, by decide, by decide⟩

/- ## Claim C7, counterexample part -/

/-- C7 counterexample configuration: `ijha_h32_initex(2, 0, 4, 0, 0, FIFO)`;
usable capacity is 1. -/
def ijhaC7start : ijha_h32 × Nat := ijha_h32_initex 2 0 4 0 0 128 (List.replicate 2 0)

/-- First acquire on the C7 configuration. -/
def ijhaC7acq1 : ijha_h32 × Nat × Nat :=
  ijha_h32__acquire_userflags_lifo_fifo ijhaC7start.1 0

/-- Release of the first handle (FIFO policy dispatch). -/
def ijhaC7rel : ijha_h32 × Nat :=
  ijha_h32_release_serial ijhaC7acq1.1 ijhaC7acq1.2.1

/-- Re-acquire after the release. -/
def ijhaC7acq2 : ijha_h32 × Nat × Nat :=
  ijha_h32__acquire_userflags_lifo_fifo ijhaC7rel.1 0

/-- Claim C7, counterexample: in the FIFO allocator `ijha_h32_initex(2,0,...,
FIFO)`, handle `h1` (index 0) is valid; after releasing `h1` the next acquire
returns index 1, not `index(h1) = 0`: the FIFO freelist always retains at
least one previously-free slot ahead of the newly released ones, so the
claim's reuse sequence is off by the old free-queue content. -/
theorem ijha_h32_fifo_reuse_not_release_order :
    ijhaC7start.2 = 0 ∧
    ijha_h32_is_fifo ijhaC7start.1 = true ∧
    ijha_h32_valid ijhaC7acq1.1 ijhaC7acq1.2.1 = true ∧
    ijhaC7rel.2 = 0 ∧
    ijha_h32_index ijhaC7acq1.1 ijhaC7acq1.2.1 = 0 ∧
    ijhaC7acq2.2.2 = 1 := by
  refine ⟨by decide, by decide, by decide, by decide, by decide, by decide⟩

/- ## A well-formedness predicate for ijha_h32 states

These are exactly the structural facts that `ijha_h32_initex` establishes for
every accepted configuration: the record region has one word per slot, all
stored words and masks are 32-bit values, `capacity_mask` is the all-ones
rounded-capacity mask, and the in-use bit, generation mask, userflags mask and
capacity mask tile disjoint bit-runs. -/

def ijha_h32.wf (A : ijha_h32) : Bool :=
  (A.handles.length == A.capacity) &&
  A.handles.all (fun w => decide (w < U32MOD)) &&
  decide (A.capacity ≤ A.capacity_mask + 1) &&
  (A.capacity_mask &&& (A.capacity_mask + 1) == 0) &&
  decide (A.capacity_mask < U32MOD) &&
  decide (A.capacity < U32MOD) &&
  decide (A.size < U32MOD) &&
  (A.in_use_bit != 0) &&
  decide (A.in_use_bit < U32MOD) &&
  decide (A.generation_mask < U32MOD) &&
  decide (A.userflags_mask < U32MOD) &&
  (A.in_use_bit &&& A.capacity_mask == 0) &&
  (A.in_use_bit &&& A.generation_mask == 0) &&
  (A.in_use_bit &&& A.userflags_mask == 0) &&
  (A.generation_mask &&& A.capacity_mask == 0) &&
  (A.userflags_mask &&& A.capacity_mask == 0) &&
  (A.userflags_mask &&& A.generation_mask == 0)

theorem ijha_h32.wf_iff (A : ijha_h32) : A.wf = true ↔
    (A.handles.length = A.capacity ∧
     (∀ w ∈ A.handles, w < U32MOD) ∧
     A.capacity ≤ A.capacity_mask + 1 ∧
     A.capacity_mask &&& (A.capacity_mask + 1) = 0 ∧
     A.capacity_mask < U32MOD ∧
     A.capacity < U32MOD ∧
     A.size < U32MOD ∧
     A.in_use_bit ≠ 0 ∧
     A.in_use_bit < U32MOD ∧
     A.generation_mask < U32MOD ∧
     A.userflags_mask < U32MOD ∧
     A.in_use_bit &&& A.capacity_mask = 0 ∧
     A.in_use_bit &&& A.generation_mask = 0 ∧
     A.in_use_bit &&& A.userflags_mask = 0 ∧
     A.generation_mask &&& A.capacity_mask = 0 ∧
     A.userflags_mask &&& A.capacity_mask = 0 ∧
     A.userflags_mask &&& A.generation_mask = 0) := by
  simp [ijha_h32.wf, List.all_eq_true, and_assoc]

/-- Numbers whose successor kills every bit (`m &&& (m+1) = 0`) are exactly
the all-ones masks `2^k - 1`. -/
theorem exists_pow_of_land_succ_eq_zero {m : Nat} (h : m &&& (m + 1) = 0) :
    ∃ k, m = 2 ^ k - 1 := by
  induction m using Nat.strong_induction_on with
  | _ m ih =>
    rcases Nat.eq_zero_or_pos m with hm | hm
    · exact ⟨0, by omega⟩
    · rcases Nat.mod_two_eq_zero_or_one m with hpar | hpar
      · exfalso
        have h2 : (m &&& (m + 1)) / 2 = m / 2 &&& (m + 1) / 2 := Nat.and_div_two
        rw [h] at h2
        have heq : (m + 1) / 2 = m / 2 := by omega
        rw [heq, Nat.and_self] at h2
        omega
      · have h2 : (m &&& (m + 1)) / 2 = m / 2 &&& (m + 1) / 2 := Nat.and_div_two
        rw [h] at h2
        have heq : (m + 1) / 2 = m / 2 + 1 := by omega
        rw [heq] at h2
        obtain ⟨k, hk⟩ := ih (m / 2) (by omega) h2.symm
        refine ⟨k + 1, ?_⟩
        have : 1 ≤ 2 ^ k := Nat.one_le_two_pow
        have hm2 : m = 2 * (m / 2) + 1 := by omega
        rw [hm2, hk]
        rw [Nat.pow_succ]
        omega

/-- The masked value of anything bounded by an all-ones mask is itself. -/
theorem land_absorb_of_land_succ {m x : Nat} (hmask : m &&& (m + 1) = 0)
    (hx : x ≤ m) : x &&& m = x := by
  obtain ⟨k, hk⟩ := exists_pow_of_land_succ_eq_zero hmask
  subst hk
  have : 1 ≤ 2 ^ k := Nat.one_le_two_pow
  exact Nat.and_pow_two_sub_one_of_lt_two_pow (by omega)

theorem getD_set_self {l : List Nat} {i : Nat} (h : i < l.length) (w : Nat) :
    (l.set i w).getD i 0 = w := by
  rw [List.getD_eq_getElem?_getD, List.getElem?_set_self h]
  rfl

theorem getD_set_ne {l : List Nat} {i j : Nat} (h : j ≠ i) (w : Nat) :
    (l.set i w).getD j 0 = l.getD j 0 := by
  rw [List.getD_eq_getElem?_getD, List.getElem?_set_ne (by omega), ← List.getD_eq_getElem?_getD]

/-- A word that was masked with the complement of the in-use bit cannot carry
that bit: `(x &&& ~b) &&& b = 0` for a 32-bit `b`. -/
theorem land_compl32_land_right {x b : Nat} (hb : b < U32MOD) :
    (x &&& compl32 b) &&& b = 0 := by
  rw [Nat.and_assoc, land_compl32_self hb, Nat.and_zero]


/- ## Success / failure characterizations of the serial release paths -/

/-- The state produced by a successful `ijha_h32__release_lifo`. -/
def ijha_h32ReleaseLifoState (A : ijha_h32) (handle : Nat) : ijha_h32 :=
  let idx := handle &&& A.capacity_mask
  let new_word := compl32 A.in_use_bit &&& ((handle &&& compl32 A.capacity_mask) ||| A.freelist_dequeue_index)
  { A with handles := A.handles.set idx new_word,
           freelist_dequeue_index := idx,
           size := usub32 A.size 1 }

/-- The state produced by a successful `ijha_h32__release_fifo`. -/
def ijha_h32ReleaseFifoState (A : ijha_h32) (handle : Nat) : ijha_h32 :=
  let idx := handle &&& A.capacity_mask
  let handles1 := A.handles.set idx (ijha_h32_slot A idx &&& compl32 A.in_use_bit)
  let tail := handles1.getD A.freelist_enqueue_index 0
  let tail_new := (tail &&& compl32 A.capacity_mask) ||| idx
  { A with handles := handles1.set A.freelist_enqueue_index tail_new,
           freelist_enqueue_index := idx,
           size := usub32 A.size 1 }

theorem ijha_h32__release_lifo_success {A : ijha_h32} {handle : Nat}
    (hg : ijha_h32ReleaseGuard A handle) :
    ijha_h32__release_lifo A handle =
      (ijha_h32ReleaseLifoState A handle, handle &&& A.capacity_mask) := by
  unfold ijha_h32__release_lifo ijha_h32ReleaseLifoState
  rw [if_pos hg]

theorem ijha_h32__release_lifo_fail {A : ijha_h32} {handle : Nat}
    (hg : ¬ijha_h32ReleaseGuard A handle) :
    ijha_h32__release_lifo A handle = (A, IJHA_H32_INVALID_INDEX) := by
  unfold ijha_h32__release_lifo
  rw [if_neg hg]

theorem ijha_h32__release_fifo_success {A : ijha_h32} {handle : Nat}
    (hg : ijha_h32ReleaseGuard A handle) :
    ijha_h32__release_fifo A handle =
      (ijha_h32ReleaseFifoState A handle, handle &&& A.capacity_mask) := by
  unfold ijha_h32__release_fifo ijha_h32ReleaseFifoState
  rw [if_pos hg]
  rfl

theorem ijha_h32__release_fifo_fail {A : ijha_h32} {handle : Nat}
    (hg : ¬ijha_h32ReleaseGuard A handle) :
    ijha_h32__release_fifo A handle = (A, IJHA_H32_INVALID_INDEX) := by
  unfold ijha_h32__release_fifo
  rw [if_neg hg]

theorem slot_releaseLifoState (A : ijha_h32) (handle : Nat)
    (hlt : handle &&& A.capacity_mask < A.handles.length) :
    ijha_h32_slot (ijha_h32ReleaseLifoState A handle) (handle &&& A.capacity_mask) =
      compl32 A.in_use_bit &&&
        ((handle &&& compl32 A.capacity_mask) ||| A.freelist_dequeue_index) := by
  simp only [ijha_h32ReleaseLifoState, ijha_h32_slot]
  exact getD_set_self hlt _

/-- After a FIFO release, the in-use bit of the released slot is clear,
whether or not the freelist tail happened to be that same slot. -/
theorem slot_releaseFifoState_land_in_use (A : ijha_h32) (handle : Nat)
    (hlt : handle &&& A.capacity_mask < A.handles.length)
    (hiu32 : A.in_use_bit < U32MOD)
    (hiucap : A.in_use_bit &&& A.capacity_mask = 0) :
    ijha_h32_slot (ijha_h32ReleaseFifoState A handle) (handle &&& A.capacity_mask) &&&
      A.in_use_bit = 0 := by
  have hidxiu : (handle &&& A.capacity_mask) &&& A.in_use_bit = 0 := by
    rw [Nat.and_assoc]
    have hcapiu : A.capacity_mask &&& A.in_use_bit = 0 := by
      rw [Nat.and_comm]; exact hiucap
    rw [hcapiu, Nat.and_zero]
  by_cases henq : A.freelist_enqueue_index = handle &&& A.capacity_mask
  · have hslot : ijha_h32_slot (ijha_h32ReleaseFifoState A handle) (handle &&& A.capacity_mask) =
        (((ijha_h32_slot A (handle &&& A.capacity_mask) &&& compl32 A.in_use_bit) &&&
            compl32 A.capacity_mask) ||| (handle &&& A.capacity_mask)) := by
      simp only [ijha_h32ReleaseFifoState, ijha_h32_slot]
      rw [henq]
      rw [getD_set_self (by rw [List.length_set]; exact hlt) _, getD_set_self hlt _]
    rw [hslot, Nat.and_distrib_right]
    have h1 : ((ijha_h32_slot A (handle &&& A.capacity_mask) &&& compl32 A.in_use_bit) &&&
        compl32 A.capacity_mask) &&& A.in_use_bit = 0 := by
      rw [Nat.and_assoc]
      have hcompl : compl32 A.capacity_mask &&& A.in_use_bit = A.in_use_bit := by
        rw [Nat.and_comm, land_compl32_of_disjoint hiucap, land_full32_of_lt hiu32]
      rw [hcompl]
      exact land_compl32_land_right hiu32
    rw [h1, hidxiu]
    decide
  · have hslot : ijha_h32_slot (ijha_h32ReleaseFifoState A handle) (handle &&& A.capacity_mask) =
        ijha_h32_slot A (handle &&& A.capacity_mask) &&& compl32 A.in_use_bit := by
      simp only [ijha_h32ReleaseFifoState, ijha_h32_slot]
      rw [getD_set_ne (fun hx => henq hx.symm) _]
      exact getD_set_self hlt _
    rw [hslot]
    exact land_compl32_land_right hiu32

/- ## Claim C4: idempotent release / double-free detection -/

/-- Claim C4: on a well-formed serial allocator (LIFO or FIFO dispatch, as
installed by `ijha_h32_initex`), if a release succeeds then releasing the very
same handle again returns `IJHA_H32_INVALID_INDEX` and returns the allocator
state completely unchanged (same size, freelist indices and every slot
word). -/
theorem ijha_h32_release_serial_eq_lifo {A : ijha_h32} {h : Nat}
    (hpol : A.flags_num_userflag_bits &&& 192 = 64) :
    ijha_h32_release_serial A h = ijha_h32__release_lifo A h := by
  simp [ijha_h32_release_serial, hpol]

theorem ijha_h32_release_serial_eq_fifo {A : ijha_h32} {h : Nat}
    (hpol : A.flags_num_userflag_bits &&& 192 ≠ 64) :
    ijha_h32_release_serial A h = ijha_h32__release_fifo A h := by
  simp [ijha_h32_release_serial, hpol]

theorem ijha_h32_release_second_returns_invalid (A : ijha_h32) (h : Nat)
    (hwf : A.wf = true)
    (hfirst : (ijha_h32_release_serial A h).2 ≠ IJHA_H32_INVALID_INDEX) :
    ijha_h32_release_serial (ijha_h32_release_serial A h).1 h =
      ((ijha_h32_release_serial A h).1, IJHA_H32_INVALID_INDEX) := by
  obtain ⟨hlen, hwords, hcaple, hmaskform, hmask32, hcap32, hsize32, hiu0, hiu32,
    hgen32, huf32, hiucap, hiugen, hiuuf, hgencap, hufcap, hufgen⟩ :=
    (ijha_h32.wf_iff A).mp hwf
  by_cases hpol : A.flags_num_userflag_bits &&& 192 = 64
  · rw [ijha_h32_release_serial_eq_lifo hpol] at hfirst ⊢
    by_cases hg : ijha_h32ReleaseGuard A h
    · rw [ijha_h32__release_lifo_success hg] at hfirst ⊢
      rw [ijha_h32_release_serial_eq_lifo
        (show (ijha_h32ReleaseLifoState A h).flags_num_userflag_bits &&& 192 = 64 from hpol)]
      rw [ijha_h32__release_lifo_fail]
      rintro ⟨-, -, hstored2⟩
      have hlt : h &&& A.capacity_mask < A.handles.length := by rw [hlen]; exact hg.1
      have hstored2' :
          ijha_h32_slot (ijha_h32ReleaseLifoState A h) (h &&& A.capacity_mask) = h := hstored2
      rw [slot_releaseLifoState A h hlt] at hstored2'
      apply hg.2.1
      rw [← hstored2']
      rw [Nat.and_comm (compl32 A.in_use_bit) _, Nat.and_assoc, land_compl32_self hiu32,
        Nat.and_zero]
    · rw [ijha_h32__release_lifo_fail hg] at hfirst
      exact absurd rfl hfirst
  · rw [ijha_h32_release_serial_eq_fifo hpol] at hfirst ⊢
    by_cases hg : ijha_h32ReleaseGuard A h
    · rw [ijha_h32__release_fifo_success hg] at hfirst ⊢
      rw [ijha_h32_release_serial_eq_fifo
        (show (ijha_h32ReleaseFifoState A h).flags_num_userflag_bits &&& 192 ≠ 64 from hpol)]
      rw [ijha_h32__release_fifo_fail]
      rintro ⟨-, -, hstored2⟩
      have hlt : h &&& A.capacity_mask < A.handles.length := by rw [hlen]; exact hg.1
      have hstored2' :
          ijha_h32_slot (ijha_h32ReleaseFifoState A h) (h &&& A.capacity_mask) = h := hstored2
      have hclr := slot_releaseFifoState_land_in_use A h hlt hiu32 hiucap
      rw [hstored2'] at hclr
      exact hg.2.1 hclr
    · rw [ijha_h32__release_fifo_fail hg] at hfirst
      exact absurd rfl hfirst

/-- Witness for C4: `ijha_h32_initex(4, 0, 4, 0, 0, LIFO)`, acquire once, then
release the returned handle twice. -/
theorem ijha_h32_release_second_returns_invalid_witness :
    ((ijha_h32__acquire_userflags_lifo_fifo
        (ijha_h32_initex 4 0 4 0 0 64 (List.replicate 4 0)).1 0).1.wf = true ∧
     (ijha_h32_release_serial
        (ijha_h32__acquire_userflags_lifo_fifo
          (ijha_h32_initex 4 0 4 0 0 64 (List.replicate 4 0)).1 0).1
        (ijha_h32__acquire_userflags_lifo_fifo
          (ijha_h32_initex 4 0 4 0 0 64 (List.replicate 4 0)).1 0).2.1).2 ≠
       IJHA_H32_INVALID_INDEX) ∧
    ijha_h32_release_serial
        (ijha_h32_release_serial
          (ijha_h32__acquire_userflags_lifo_fifo
            (ijha_h32_initex 4 0 4 0 0 64 (List.replicate 4 0)).1 0).1
          (ijha_h32__acquire_userflags_lifo_fifo
            (ijha_h32_initex 4 0 4 0 0 64 (List.replicate 4 0)).1 0).2.1).1
        (ijha_h32__acquire_userflags_lifo_fifo
          (ijha_h32_initex 4 0 4 0 0 64 (List.replicate 4 0)).1 0).2.1 =
      ((ijha_h32_release_serial
          (ijha_h32__acquire_userflags_lifo_fifo
            (ijha_h32_initex 4 0 4 0 0 64 (List.replicate 4 0)).1 0).1
          (ijha_h32__acquire_userflags_lifo_fifo
            (ijha_h32_initex 4 0 4 0 0 64 (List.replicate 4 0)).1 0).2.1).1,
       IJHA_H32_INVALID_INDEX) :=
  ⟨⟨by decide, by decide⟩,
   ijha_h32_release_second_returns_invalid
     (ijha_h32__acquire_userflags_lifo_fifo
       (ijha_h32_initex 4 0 4 0 0 64 (List.replicate 4 0)).1 0).1
     (ijha_h32__acquire_userflags_lifo_fifo
       (ijha_h32_initex 4 0 4 0 0 64 (List.replicate 4 0)).1 0).2.1
     (by decide) (by decide)⟩

/- ## Acquire characterization and arithmetic helpers -/

theorem usub32_eq_sub {a b : Nat} (hb : b ≤ a) (ha : a < U32MOD) : usub32 a b = a - b := by
  simp only [usub32, U32MOD] at *
  omega

theorem uadd32_eq_add {a b : Nat} (h : a + b < U32MOD) : uadd32 a b = a + b := by
  simp only [uadd32, U32MOD] at *
  omega

theorem land_comm_zero {a b : Nat} (h : a &&& b = 0) : b &&& a = 0 := by
  rw [Nat.and_comm]; exact h

/-- The handle word written by a successful serial acquire. -/
def ijha_h32AcquireHandle (A : ijha_h32) (userflags : Nat) : Nat :=
  userflags |||
    (A.generation_mask &&&
      uadd32 (ijha_h32_slot A A.freelist_dequeue_index) (ijha_h32__generation_add A)) |||
    A.in_use_bit ||| A.freelist_dequeue_index

/-- The state produced by a successful serial acquire. -/
def ijha_h32AcquireState (A : ijha_h32) (userflags : Nat) : ijha_h32 :=
  { A with handles := A.handles.set A.freelist_dequeue_index (ijha_h32AcquireHandle A userflags),
           freelist_dequeue_index :=
             ijha_h32_slot A A.freelist_dequeue_index &&& A.capacity_mask,
           size := uadd32 A.size 1 }

theorem ijha_h32_acquire_success {A : ijha_h32} {userflags : Nat}
    (hroom : A.size ≠ usub32 A.capacity (if ijha_h32_is_fifo A then 1 else 0)) :
    ijha_h32__acquire_userflags_lifo_fifo A userflags =
      (ijha_h32AcquireState A userflags, ijha_h32AcquireHandle A userflags,
       A.freelist_dequeue_index) := by
  unfold ijha_h32__acquire_userflags_lifo_fifo ijha_h32AcquireState ijha_h32AcquireHandle
  rw [if_neg (by simpa using hroom)]

theorem ijha_h32_acquire_full {A : ijha_h32} {userflags : Nat}
    (hfull : A.size = usub32 A.capacity (if ijha_h32_is_fifo A then 1 else 0)) :
    ijha_h32__acquire_userflags_lifo_fifo A userflags =
      (A, 0, IJHA_H32_INVALID_INDEX) := by
  unfold ijha_h32__acquire_userflags_lifo_fifo
  rw [if_pos (by simpa using hfull)]

/- ## Claim C3: acquire/release round trip -/

/-- Claim C3: on a well-formed serial allocator with room for at least one
more handle and a legal userflags value, the pair `(i, h)` returned by
acquire satisfies `userflags(h) = uf`, `index(h) = i` and `valid(h)`; a
subsequent release of `h` returns `i` and leaves `h` invalid. -/
theorem ijha_h32_acquire_release_round_trip (A : ijha_h32) (uf : Nat)
    (hwf : A.wf = true)
    (hdeq : A.freelist_dequeue_index < A.capacity)
    (hroom : A.size + (if ijha_h32_is_fifo A then 1 else 0) < A.capacity)
    (hufm : uf &&& A.userflags_mask = uf) :
    (ijha_h32__acquire_userflags_lifo_fifo A uf).2.2 ≠ IJHA_H32_INVALID_INDEX ∧
    ijha_h32_userflags (ijha_h32__acquire_userflags_lifo_fifo A uf).1
      (ijha_h32__acquire_userflags_lifo_fifo A uf).2.1 = uf ∧
    ijha_h32_index (ijha_h32__acquire_userflags_lifo_fifo A uf).1
      (ijha_h32__acquire_userflags_lifo_fifo A uf).2.1 =
      (ijha_h32__acquire_userflags_lifo_fifo A uf).2.2 ∧
    ijha_h32_valid (ijha_h32__acquire_userflags_lifo_fifo A uf).1
      (ijha_h32__acquire_userflags_lifo_fifo A uf).2.1 = true ∧
    (ijha_h32_release_serial (ijha_h32__acquire_userflags_lifo_fifo A uf).1
      (ijha_h32__acquire_userflags_lifo_fifo A uf).2.1).2 =
      (ijha_h32__acquire_userflags_lifo_fifo A uf).2.2 ∧
    ijha_h32_valid
      (ijha_h32_release_serial (ijha_h32__acquire_userflags_lifo_fifo A uf).1
        (ijha_h32__acquire_userflags_lifo_fifo A uf).2.1).1
      (ijha_h32__acquire_userflags_lifo_fifo A uf).2.1 = false := by
  obtain ⟨hlen, hwords, hcaple, hmaskform, hmask32, hcap32, hsize32, hiu0, hiu32,
    hgen32, huf32, hiucap, hiugen, hiuuf, hgencap, hufcap, hufgen⟩ :=
    (ijha_h32.wf_iff A).mp hwf
  have hroom' : A.size ≠ usub32 A.capacity (if ijha_h32_is_fifo A then 1 else 0) := by
    rw [usub32_eq_sub (by omega) hcap32]
    omega
  rw [ijha_h32_acquire_success hroom']
  set i := A.freelist_dequeue_index with hidef
  set gen2 := A.generation_mask &&&
      uadd32 (ijha_h32_slot A A.freelist_dequeue_index) (ijha_h32__generation_add A) with hgendef
  have hh : ijha_h32AcquireHandle A uf = uf ||| gen2 ||| A.in_use_bit ||| i := rfl
  have hexpand : ∀ m : Nat, (uf ||| gen2 ||| A.in_use_bit ||| i) &&& m =
      (uf &&& m) ||| (gen2 &&& m) ||| (A.in_use_bit &&& m) ||| (i &&& m) := by
    intro m
    rw [Nat.and_distrib_right, Nat.and_distrib_right, Nat.and_distrib_right]
  have hi_mask : i &&& A.capacity_mask = i :=
    land_absorb_of_land_succ hmaskform (by omega)
  have hgen2sub : gen2 &&& A.generation_mask = gen2 := by
    rw [hgendef, Nat.and_comm A.generation_mask _, Nat.and_assoc, Nat.and_self]
  have hh_cap : (uf ||| gen2 ||| A.in_use_bit ||| i) &&& A.capacity_mask = i := by
    rw [hexpand, land_eq_zero_of_submask hufm hufcap,
      land_eq_zero_of_submask hgen2sub hgencap, hiucap, hi_mask]
    simp
  have hh_uf : (uf ||| gen2 ||| A.in_use_bit ||| i) &&& A.userflags_mask = uf := by
    rw [hexpand, hufm, land_eq_zero_of_submask hgen2sub (land_comm_zero hufgen), hiuuf,
      land_eq_zero_of_submask hi_mask (land_comm_zero hufcap)]
    simp
  have hh_iu : (uf ||| gen2 ||| A.in_use_bit ||| i) &&& A.in_use_bit = A.in_use_bit := by
    rw [hexpand, land_eq_zero_of_submask hufm (land_comm_zero hiuuf),
      land_eq_zero_of_submask hgen2sub (land_comm_zero hiugen), Nat.and_self,
      land_eq_zero_of_submask hi_mask (land_comm_zero hiucap)]
    simp
  have hilen : i < A.handles.length := by rw [hlen]; exact hdeq
  have hslot1 : ijha_h32_slot (ijha_h32AcquireState A uf) i =
      uf ||| gen2 ||| A.in_use_bit ||| i := by
    simp only [ijha_h32AcquireState, ijha_h32_slot]
    rw [← hidef]
    exact getD_set_self hilen _
  have hguard : ijha_h32ReleaseGuard (ijha_h32AcquireState A uf)
      (ijha_h32AcquireHandle A uf) := by
    refine ⟨?_, ?_, ?_⟩
    · show A.capacity > ijha_h32AcquireHandle A uf &&& A.capacity_mask
      rw [hh, hh_cap]
      exact hdeq
    · show ijha_h32AcquireHandle A uf &&& A.in_use_bit ≠ 0
      rw [hh, hh_iu]
      exact hiu0
    · show ijha_h32_slot (ijha_h32AcquireState A uf)
        (ijha_h32AcquireHandle A uf &&& A.capacity_mask) = ijha_h32AcquireHandle A uf
      rw [hh, hh_cap, hslot1]
  have hfulliu : (4294967295 : Nat) &&& A.in_use_bit = A.in_use_bit := by
    rw [Nat.and_comm]
    exact land_full32_of_lt hiu32
  -- any state whose slot for the fresh handle has the in-use bit cleared
  -- rejects the handle as invalid
  have hreles : ∀ R : ijha_h32, R.capacity_mask = A.capacity_mask →
      ijha_h32_slot R (ijha_h32AcquireHandle A uf &&& A.capacity_mask) &&& A.in_use_bit = 0 →
      ijha_h32_valid R (ijha_h32AcquireHandle A uf) = false := by
    intro R hRcm hR
    unfold ijha_h32_valid ijha_h32_valid_mask ijha_h32_in_use
    rw [hRcm]
    have hne : ijha_h32_slot R (ijha_h32AcquireHandle A uf &&& A.capacity_mask) &&&
        4294967295 ≠ ijha_h32AcquireHandle A uf &&& 4294967295 := by
      intro heq
      have h2 := congrArg (fun n => n &&& A.in_use_bit) heq
      simp only [Nat.and_assoc, hfulliu] at h2
      rw [hR] at h2
      rw [hh, hh_iu] at h2
      exact hiu0 h2.symm
    simp [hne]
  have hltAS : ijha_h32AcquireHandle A uf &&& A.capacity_mask <
      (ijha_h32AcquireState A uf).handles.length := by
    show _ < (A.handles.set i (ijha_h32AcquireHandle A uf)).length
    rw [List.length_set, hh, hh_cap]
    exact hilen
  refine ⟨?_, ?_, ?_, ?_, ?_, ?_⟩
  · show i ≠ IJHA_H32_INVALID_INDEX
    have h2 : A.capacity < 4294967296 := hcap32
    show i ≠ 4294967295
    omega
  · show ijha_h32_userflags (ijha_h32AcquireState A uf) (ijha_h32AcquireHandle A uf) = uf
    unfold ijha_h32_userflags ijha_h32_index
    show ijha_h32_slot (ijha_h32AcquireState A uf)
      (A.capacity_mask &&& ijha_h32AcquireHandle A uf) &&& A.userflags_mask = uf
    rw [Nat.and_comm A.capacity_mask _, hh, hh_cap, hslot1]
    exact hh_uf
  · show ijha_h32_index (ijha_h32AcquireState A uf) (ijha_h32AcquireHandle A uf) = i
    unfold ijha_h32_index
    show A.capacity_mask &&& ijha_h32AcquireHandle A uf = i
    rw [Nat.and_comm A.capacity_mask _, hh, hh_cap]
  · show ijha_h32_valid (ijha_h32AcquireState A uf) (ijha_h32AcquireHandle A uf) = true
    unfold ijha_h32_valid ijha_h32_valid_mask ijha_h32_in_use
    show (decide (A.capacity > ijha_h32AcquireHandle A uf &&& A.capacity_mask) &&
      (ijha_h32AcquireHandle A uf &&& A.in_use_bit != 0) &&
      ((ijha_h32_slot (ijha_h32AcquireState A uf)
          (ijha_h32AcquireHandle A uf &&& A.capacity_mask) &&& 4294967295) ==
        (ijha_h32AcquireHandle A uf &&& 4294967295))) = true
    rw [hh, hh_cap, hh_iu, hslot1]
    simp [hdeq, hiu0]
  · show (ijha_h32_release_serial (ijha_h32AcquireState A uf) (ijha_h32AcquireHandle A uf)).2 = i
    by_cases hpol : A.flags_num_userflag_bits &&& 192 = 64
    · rw [ijha_h32_release_serial_eq_lifo
        (show (ijha_h32AcquireState A uf).flags_num_userflag_bits &&& 192 = 64 from hpol)]
      rw [ijha_h32__release_lifo_success hguard]
      show ijha_h32AcquireHandle A uf &&& A.capacity_mask = i
      rw [hh, hh_cap]
    · rw [ijha_h32_release_serial_eq_fifo
        (show (ijha_h32AcquireState A uf).flags_num_userflag_bits &&& 192 ≠ 64 from hpol)]
      rw [ijha_h32__release_fifo_success hguard]
      show ijha_h32AcquireHandle A uf &&& A.capacity_mask = i
      rw [hh, hh_cap]
  · by_cases hpol : A.flags_num_userflag_bits &&& 192 = 64
    · rw [ijha_h32_release_serial_eq_lifo
        (show (ijha_h32AcquireState A uf).flags_num_userflag_bits &&& 192 = 64 from hpol)]
      rw [ijha_h32__release_lifo_success hguard]
      show ijha_h32_valid
        (ijha_h32ReleaseLifoState (ijha_h32AcquireState A uf) (ijha_h32AcquireHandle A uf))
        (ijha_h32AcquireHandle A uf) = false
      refine hreles _ rfl ?_
      have hsr : ijha_h32_slot
          (ijha_h32ReleaseLifoState (ijha_h32AcquireState A uf) (ijha_h32AcquireHandle A uf))
          (ijha_h32AcquireHandle A uf &&& A.capacity_mask) =
          compl32 A.in_use_bit &&&
            ((ijha_h32AcquireHandle A uf &&& compl32 A.capacity_mask) |||
              (ijha_h32AcquireState A uf).freelist_dequeue_index) :=
        slot_releaseLifoState (ijha_h32AcquireState A uf) (ijha_h32AcquireHandle A uf) hltAS
      rw [hsr, Nat.and_comm (compl32 A.in_use_bit) _, Nat.and_assoc,
        land_compl32_self hiu32, Nat.and_zero]
    · rw [ijha_h32_release_serial_eq_fifo
        (show (ijha_h32AcquireState A uf).flags_num_userflag_bits &&& 192 ≠ 64 from hpol)]
      rw [ijha_h32__release_fifo_success hguard]
      show ijha_h32_valid
        (ijha_h32ReleaseFifoState (ijha_h32AcquireState A uf) (ijha_h32AcquireHandle A uf))
        (ijha_h32AcquireHandle A uf) = false
      refine hreles _ rfl ?_
      exact slot_releaseFifoState_land_in_use (ijha_h32AcquireState A uf)
        (ijha_h32AcquireHandle A uf) hltAS hiu32 hiucap

/-- Witness for C3 at `ijha_h32_initex(5, 2, 4, 0, 0, FIFO)` with userflags
value `0x20000000` (one of the two reserved userflag bits). -/
theorem ijha_h32_acquire_release_round_trip_witness :
    ((ijha_h32_initex 5 2 4 0 0 128 (List.replicate 5 0)).1.wf = true ∧
     (ijha_h32_initex 5 2 4 0 0 128 (List.replicate 5 0)).1.freelist_dequeue_index <
       (ijha_h32_initex 5 2 4 0 0 128 (List.replicate 5 0)).1.capacity ∧
     (ijha_h32_initex 5 2 4 0 0 128 (List.replicate 5 0)).1.size +
       (if ijha_h32_is_fifo (ijha_h32_initex 5 2 4 0 0 128 (List.replicate 5 0)).1 then 1 else 0) <
       (ijha_h32_initex 5 2 4 0 0 128 (List.replicate 5 0)).1.capacity ∧
     536870912 &&& (ijha_h32_initex 5 2 4 0 0 128 (List.replicate 5 0)).1.userflags_mask =
       536870912) ∧
    ijha_h32_userflags
      (ijha_h32__acquire_userflags_lifo_fifo
        (ijha_h32_initex 5 2 4 0 0 128 (List.replicate 5 0)).1 536870912).1
      (ijha_h32__acquire_userflags_lifo_fifo
        (ijha_h32_initex 5 2 4 0 0 128 (List.replicate 5 0)).1 536870912).2.1 = 536870912 ∧
    ijha_h32_valid
      (ijha_h32_release_serial
        (ijha_h32__acquire_userflags_lifo_fifo
          (ijha_h32_initex 5 2 4 0 0 128 (List.replicate 5 0)).1 536870912).1
        (ijha_h32__acquire_userflags_lifo_fifo
          (ijha_h32_initex 5 2 4 0 0 128 (List.replicate 5 0)).1 536870912).2.1).1
      (ijha_h32__acquire_userflags_lifo_fifo
        (ijha_h32_initex 5 2 4 0 0 128 (List.replicate 5 0)).1 536870912).2.1 = false :=
  ⟨⟨by decide, by decide, by decide, by decide⟩,
   (ijha_h32_acquire_release_round_trip (ijha_h32_initex 5 2 4 0 0 128 (List.replicate 5 0)).1
     536870912 (by decide) (by decide) (by decide) (by decide)).2.1,
   (ijha_h32_acquire_release_round_trip (ijha_h32_initex 5 2 4 0 0 128 (List.replicate 5 0)).1
     536870912 (by decide) (by decide) (by decide) (by decide)).2.2.2.2.2⟩

/- ## The ijss sparse set (src/ijss.h)

The dense and sparse arrays are caller memory addressed through
stride/elementsize arithmetic; each array is modelled as a list of index
values. `ijss__load`/`ijss__store` become list reads/writes. -/

structure ijss where
  dense : List Nat
  sparse : List Nat
  size : Nat
  capacity : Nat
deriving Repr, DecidableEq

/-- `IJSS__LOAD_DENSE(idx)`. -/
def ijss_load_dense (S : ijss) (idx : Nat) : Nat := S.dense.getD idx 0

/-- `IJSS__LOAD_SPARSE(idx)`. -/
def ijss_load_sparse (S : ijss) (idx : Nat) : Nat := S.sparse.getD idx 0

/-- Function `ijss_reset`. -/
def ijss_reset (S : ijss) : ijss := { S with size := 0 }

/-- Function `ijss_reset_identity`: size to 0 and `D[i] = i` for all `i`. -/
def ijss_reset_identity (S : ijss) : ijss :=
  { S with size := 0, dense := List.range S.capacity }

/-- Function `ijss_add`. Returns the new state and the dense index. -/
def ijss_add (S : ijss) (sparse_index : Nat) : ijss × Nat :=
  let dense_index := S.size
  ({ S with dense := S.dense.set dense_index sparse_index,
            sparse := S.sparse.set sparse_index dense_index,
            size := uadd32 S.size 1 },
   dense_index)

/-- Function `ijss_has`. -/
def ijss_has (S : ijss) (sparse_index : Nat) : Bool :=
  if sparse_index ≥ S.capacity then false
  else
    decide (S.size > ijss_load_sparse S sparse_index) &&
      (ijss_load_dense S (ijss_load_sparse S sparse_index) == sparse_index)

/-- Function `ijss_remove`. Returns the new state, the `int` result
(`-1`/`0`/`1`) and, on success, the pair `(move_to, move_from)` that the C
code writes through its out-pointers. -/
def ijss_remove (S : ijss) (sparse_index : Nat) : ijss × Int × Option (Nat × Nat) :=
  if ijss_has S sparse_index = false then
    (S, -1, none)
  else
    let size_now := usub32 S.size 1
    let dense_index_of_removed := ijss_load_sparse S sparse_index
    let sparse_index_of_back := ijss_load_dense S size_now
    ({ S with dense := (S.dense.set size_now sparse_index).set
                dense_index_of_removed sparse_index_of_back,
              sparse := S.sparse.set sparse_index_of_back dense_index_of_removed,
              size := usub32 S.size 1 },
     if dense_index_of_removed ≠ size_now then 1 else 0,
     some (dense_index_of_removed, size_now))

/-- Function `ijss_dense_index`. -/
def ijss_dense_index (S : ijss) (sparse_index : Nat) : Nat :=
  ijss_load_sparse S sparse_index

/-- Function `ijss_sparse_index`. -/
def ijss_sparse_index (S : ijss) (dense_index : Nat) : Nat :=
  ijss_load_dense S dense_index

/- ## Claim C8: sparse-set remove -/

/-- Claim C8: `ijss_remove` returns `-1` and changes nothing when `s` is not
a member; otherwise, with `d = sparse[s]` and `back_s = dense[size-1]`, it
writes `dense[size-1] = s` then `dense[d] = back_s` and `sparse[back_s] = d`,
decrements `size`, reports `move_to = d` and `move_from = size-1`, and
returns `1` exactly when `d ≠ size-1` (a swap happened), else `0`. -/
theorem ijss_remove_spec (S : ijss) (s : Nat)
    (hsize32 : S.size < U32MOD) :
    (ijss_has S s = false → ijss_remove S s = (S, -1, none)) ∧
    (ijss_has S s = true →
      ijss_remove S s =
        ({ S with dense := (S.dense.set (S.size - 1) s).set
                    (ijss_load_sparse S s) (ijss_load_dense S (S.size - 1)),
                  sparse := S.sparse.set (ijss_load_dense S (S.size - 1))
                    (ijss_load_sparse S s),
                  size := S.size - 1 },
         if ijss_load_sparse S s ≠ S.size - 1 then 1 else 0,
         some (ijss_load_sparse S s, S.size - 1))) := by
  constructor
  · intro hno
    unfold ijss_remove
    rw [if_pos hno]
  · intro hyes
    have hge1 : 1 ≤ S.size := by
      unfold ijss_has at hyes
      by_cases hc : s ≥ S.capacity
      · rw [if_pos hc] at hyes
        exact absurd hyes (by simp)
      · rw [if_neg hc] at hyes
        simp only [Bool.and_eq_true, decide_eq_true_eq] at hyes
        omega
    have hsub : usub32 S.size 1 = S.size - 1 := usub32_eq_sub (by omega) hsize32
    unfold ijss_remove
    rw [if_neg (by simp [hyes])]
    rw [hsub]

/-- Witness for C8: capacity-4 set holding sparse indices 0,1,2 at dense
positions 0,1,2; removing member 1 swaps the back (2) into dense slot 1. -/
theorem ijss_remove_spec_witness :
    (ijss.mk [0, 1, 2, 3] [0, 1, 2, 3] 3 4).size < U32MOD ∧
    (ijss_has (ijss.mk [0, 1, 2, 3] [0, 1, 2, 3] 3 4) 1 = true →
      ijss_remove (ijss.mk [0, 1, 2, 3] [0, 1, 2, 3] 3 4) 1 =
        ({ ijss.mk [0, 1, 2, 3] [0, 1, 2, 3] 3 4 with
            dense := (([0, 1, 2, 3] : List Nat).set 2 1).set
              (ijss_load_sparse (ijss.mk [0, 1, 2, 3] [0, 1, 2, 3] 3 4) 1)
              (ijss_load_dense (ijss.mk [0, 1, 2, 3] [0, 1, 2, 3] 3 4) 2),
            sparse := ([0, 1, 2, 3] : List Nat).set
              (ijss_load_dense (ijss.mk [0, 1, 2, 3] [0, 1, 2, 3] 3 4) 2)
              (ijss_load_sparse (ijss.mk [0, 1, 2, 3] [0, 1, 2, 3] 3 4) 1),
            size := 2 },
         if ijss_load_sparse (ijss.mk [0, 1, 2, 3] [0, 1, 2, 3] 3 4) 1 ≠ 2 then 1 else 0,
         some (ijss_load_sparse (ijss.mk [0, 1, 2, 3] [0, 1, 2, 3] 3 4) 1, 2))) :=
  ⟨by decide,
   (ijss_remove_spec (ijss.mk [0, 1, 2, 3] [0, 1, 2, 3] 3 4) 1 (by decide)).2⟩

/- ## The legacy ijha_fifo_h32 allocator (the unnamed source file) and the
dense/sparse layer ijha_fifo_ds_h32i32 (src/ijha_fifo_ds_h32i32.h)

A record is `struct ijha_fifo_ds_h32i32_indexhandle`: the embedded
`ijha_fifo_h32_indexhandle` (`handle`, `next_index`) plus the DS bookkeeping
fields. The base allocator's stride machinery never touches the DS fields, so
the plain `ijha_fifo_h32` operations read and write only `handle` and
`next_index`. -/

structure ijha_fifo_ds_h32i32_indexhandle where
  handle : Nat
  next_index : Nat
  dense_index : Nat
  sparse_index : Nat
deriving Repr, DecidableEq

/-- The all-zero record used as the out-of-range read default. -/
def dsRec0 : ijha_fifo_ds_h32i32_indexhandle := ⟨0, 0, 0, 0⟩

structure ijha_fifo_h32 where
  handles : List ijha_fifo_ds_h32i32_indexhandle
  num_handles : Nat
  capacity_mask : Nat
  generation_mask : Nat
  freelist_enqueue_index : Nat
  freelist_dequeue_index : Nat
deriving Repr, DecidableEq

/-- `IJHA_FIFO_H32_NEXT_INDEX_FREE_BIT`. -/
def IJHA_FIFO_H32_NEXT_INDEX_FREE_BIT : Nat := 0x80000000

/-- `IJHA_FIFO_H32_INVALID_INDEX = (unsigned)-1`. -/
def IJHA_FIFO_H32_INVALID_INDEX : Nat := 4294967295

/-- `ijha_fifo_h32__handle_info_at(index)` (whole record). -/
def ijha_fifo_h32_rec (S : ijha_fifo_h32) (i : Nat) : ijha_fifo_ds_h32i32_indexhandle :=
  S.handles.getD i dsRec0

/-- Function `ijha_fifo_h32_reset`: every slot `i` gets `handle = i` and
`next_index = (i+1) | FREE_BIT`, the last slot's link then loops to `0`. -/
def ijha_fifo_h32_reset (S : ijha_fifo_h32) : ijha_fifo_h32 :=
  { S with num_handles := 0,
           freelist_dequeue_index := 0,
           freelist_enqueue_index := S.capacity_mask,
           handles := (List.range (S.capacity_mask + 1)).map fun i =>
             { S.handles.getD i dsRec0 with
                handle := i,
                next_index := if i = S.capacity_mask then IJHA_FIFO_H32_NEXT_INDEX_FREE_BIT
                              else (i + 1) ||| IJHA_FIFO_H32_NEXT_INDEX_FREE_BIT } }

/-- Function `ijha_fifo_h32_init_stride` (mask computation plus reset; the
strides and the asserts are byte-layout bookkeeping). -/
def ijha_fifo_h32_init_stride (max_num_handles num_userflag_bits : Nat)
    (memory : List ijha_fifo_ds_h32i32_indexhandle) : ijha_fifo_h32 :=
  let rounded := ijha_h32__roundup max_num_handles
  let userflags_mask :=
    if num_userflag_bits ≠ 0 then (4294967295 <<< (32 - num_userflag_bits)) % U32MOD else 0
  let capacity_mask := usub32 rounded 1
  ijha_fifo_h32_reset
    { handles := memory,
      num_handles := 0,
      capacity_mask := capacity_mask,
      generation_mask := compl32 (capacity_mask ||| userflags_mask),
      freelist_enqueue_index := 0,
      freelist_dequeue_index := 0 }

/-- Function `ijha_fifo_h32_valid`: stored handle equal and free bit clear. -/
def ijha_fifo_h32_valid (S : ijha_fifo_h32) (handle : Nat) : Bool :=
  ((ijha_fifo_h32_rec S (handle &&& S.capacity_mask)).handle == handle) &&
  (((ijha_fifo_h32_rec S (handle &&& S.capacity_mask)).next_index &&&
    IJHA_FIFO_H32_NEXT_INDEX_FREE_BIT) == 0)

/-- Function `ijha_fifo_h32_acquire_mask`. Returns the new state, the value
stored in `*handle_out`, and the returned index. With two or more generation
bits the new generation skips the values `0` and full-mask (the skip-and-bump
that guarantees handles are neither `0` nor `0xffffffff`). -/
def ijha_fifo_h32_acquire_mask (S : ijha_fifo_h32) (userflags : Nat) :
    ijha_fifo_h32 × Nat × Nat :=
  let userflags_mask := compl32 (S.capacity_mask ||| S.generation_mask)
  if S.num_handles == S.capacity_mask then
    (S, 0, IJHA_FIFO_H32_INVALID_INDEX)
  else
    let generation_mask := S.generation_mask
    let generation_to_add := uadd32 S.capacity_mask 1
    let next_to_last_generation_mask := ((generation_mask <<< 1) % U32MOD) &&& generation_mask
    let i := S.freelist_dequeue_index
    let r := ijha_fifo_h32_rec S i
    let next1 := r.next_index &&& 0x7fffffff
    let index_handle := r.handle
    let new_handle :=
      if next_to_last_generation_mask ≠ 0 then
        let current_generation := index_handle &&& generation_mask
        let new_generation :=
          if current_generation == next_to_last_generation_mask then generation_to_add
          else generation_mask &&& uadd32 index_handle generation_to_add
        (index_handle &&& S.capacity_mask) ||| new_generation ||| userflags
      else if generation_mask ≠ 0 then
        (index_handle &&& S.capacity_mask) |||
          (generation_mask &&& uadd32 index_handle generation_to_add) ||| userflags
      else
        (compl32 userflags_mask &&& index_handle) ||| userflags
    ({ S with handles := S.handles.set i { r with handle := new_handle, next_index := next1 },
              freelist_dequeue_index := next1,
              num_handles := uadd32 S.num_handles 1 },
     new_handle, new_handle &&& S.capacity_mask)

/-- Function `ijha_fifo_h32_release`: on a valid handle, set the slot's free
bit, splice its index onto the freelist tail, decrement the count and return
the sparse index; otherwise return `IJHA_FIFO_H32_INVALID_INDEX`. -/
def ijha_fifo_h32_release (S : ijha_fifo_h32) (handle : Nat) : ijha_fifo_h32 × Nat :=
  if ijha_fifo_h32_valid S handle then
    let sparse_index := handle &&& S.capacity_mask
    let stored := ijha_fifo_h32_rec S sparse_index
    let handles1 := S.handles.set sparse_index
      { stored with next_index := stored.next_index ||| IJHA_FIFO_H32_NEXT_INDEX_FREE_BIT }
    let tailrec := handles1.getD S.freelist_enqueue_index dsRec0
    let handles2 := handles1.set S.freelist_enqueue_index
      { tailrec with next_index := sparse_index ||| IJHA_FIFO_H32_NEXT_INDEX_FREE_BIT }
    ({ S with handles := handles2,
              freelist_enqueue_index := sparse_index,
              num_handles := usub32 S.num_handles 1 },
     sparse_index)
  else
    (S, IJHA_FIFO_H32_INVALID_INDEX)

/-- Function `ijha_fifo_ds_h32i32_init`: round up, init the base allocator
with the larger record stride, reset. -/
def ijha_fifo_ds_h32i32_init (max_num_handles num_userflag_bits : Nat)
    (memory : List ijha_fifo_ds_h32i32_indexhandle) : ijha_fifo_h32 :=
  ijha_fifo_h32_reset
    (ijha_fifo_h32_init_stride (ijha_h32__roundup max_num_handles) num_userflag_bits memory)

/-- Function `ijha_fifo_ds_h32i32_acquire_mask`. Returns the new state, the
handle, and the dense index (or invalid). -/
def ijha_fifo_ds_h32i32_acquire_mask (S : ijha_fifo_h32) (userflags : Nat) :
    ijha_fifo_h32 × Nat × Nat :=
  let dense_index := S.num_handles
  let step := ijha_fifo_h32_acquire_mask S userflags
  let S1 := step.1
  let handle_out := step.2.1
  let sparse_index := step.2.2
  if sparse_index == IJHA_FIFO_H32_INVALID_INDEX then
    (S1, handle_out, IJHA_FIFO_H32_INVALID_INDEX)
  else
    let r1 := S1.handles.getD sparse_index dsRec0
    let h1 := S1.handles.set sparse_index { r1 with dense_index := dense_index }
    let r2 := h1.getD dense_index dsRec0
    let h2 := h1.set dense_index { r2 with sparse_index := sparse_index }
    ({ S1 with handles := h2 }, handle_out, dense_index)

/-- Function `ijha_fifo_ds_h32i32_release`. Returns the new state,
`*move_from_index`, `*move_to_index`, and the `is_back_index` result. -/
def ijha_fifo_ds_h32i32_release (S : ijha_fifo_h32) (handle : Nat) :
    ijha_fifo_h32 × Nat × Nat × Bool :=
  let step := ijha_fifo_h32_release S handle
  let S1 := step.1
  let sparse_index_of_removed := step.2
  let dense_index_of_removed := (S1.handles.getD sparse_index_of_removed dsRec0).dense_index
  let is_back_index := dense_index_of_removed == S1.num_handles
  let S2 :=
    if is_back_index then S1
    else
      let sparse_index_of_back := (S1.handles.getD S1.num_handles dsRec0).sparse_index
      let r1 := S1.handles.getD sparse_index_of_back dsRec0
      let h1 := S1.handles.set sparse_index_of_back { r1 with dense_index := dense_index_of_removed }
      let r2 := h1.getD dense_index_of_removed dsRec0
      { S1 with handles := h1.set dense_index_of_removed { r2 with sparse_index := sparse_index_of_back } }
  let r3 := S2.handles.getD sparse_index_of_removed dsRec0
  ({ S2 with handles := S2.handles.set sparse_index_of_removed { r3 with dense_index := 4294967295 } },
   S1.num_handles, dense_index_of_removed, is_back_index)

/-- Function `ijha_fifo_ds_h32i32_dense_index`. -/
def ijha_fifo_ds_h32i32_dense_index (S : ijha_fifo_h32) (handle : Nat) : Nat :=
  if ijha_fifo_h32_valid S handle then
    (S.handles.getD (handle &&& S.capacity_mask) dsRec0).dense_index
  else
    IJHA_FIFO_H32_INVALID_INDEX

theorem getD_set_eq {α : Type} {l : List α} {i : Nat} (h : i < l.length) (w d : α) :
    (l.set i w).getD i d = w := by
  rw [List.getD_eq_getElem?_getD, List.getElem?_set_self h]
  rfl

theorem getD_set_neq {α : Type} {l : List α} {i j : Nat} (h : j ≠ i) (w d : α) :
    (l.set i w).getD j d = l.getD j d := by
  rw [List.getD_eq_getElem?_getD, List.getElem?_set_ne (fun hx => h hx.symm),
    ← List.getD_eq_getElem?_getD]

/-- The state produced by a successful `ijha_fifo_h32_release`. -/
def ijha_fifo_h32ReleaseState (S : ijha_fifo_h32) (handle : Nat) : ijha_fifo_h32 :=
  let sparse_index := handle &&& S.capacity_mask
  let stored := ijha_fifo_h32_rec S sparse_index
  let handles1 := S.handles.set sparse_index
    { stored with next_index := stored.next_index ||| IJHA_FIFO_H32_NEXT_INDEX_FREE_BIT }
  let tailrec := handles1.getD S.freelist_enqueue_index dsRec0
  let handles2 := handles1.set S.freelist_enqueue_index
    { tailrec with next_index := sparse_index ||| IJHA_FIFO_H32_NEXT_INDEX_FREE_BIT }
  { S with handles := handles2,
           freelist_enqueue_index := sparse_index,
           num_handles := usub32 S.num_handles 1 }

theorem ijha_fifo_h32_release_success {S : ijha_fifo_h32} {handle : Nat}
    (hv : ijha_fifo_h32_valid S handle = true) :
    ijha_fifo_h32_release S handle =
      (ijha_fifo_h32ReleaseState S handle, handle &&& S.capacity_mask) := by
  unfold ijha_fifo_h32_release ijha_fifo_h32ReleaseState
  rw [if_pos hv]

/-- `ijha_fifo_h32_release` rewrites only `next_index` fields: every record
keeps its `handle`, `dense_index` and `sparse_index`. -/
theorem fifoReleaseState_preserves (S : ijha_fifo_h32) (handle : Nat) (j : Nat)
    (hs_lt : handle &&& S.capacity_mask < S.handles.length)
    (henq : S.freelist_enqueue_index < S.handles.length) :
    ((ijha_fifo_h32ReleaseState S handle).handles.getD j dsRec0).handle =
      (S.handles.getD j dsRec0).handle ∧
    ((ijha_fifo_h32ReleaseState S handle).handles.getD j dsRec0).dense_index =
      (S.handles.getD j dsRec0).dense_index ∧
    ((ijha_fifo_h32ReleaseState S handle).handles.getD j dsRec0).sparse_index =
      (S.handles.getD j dsRec0).sparse_index := by
  unfold ijha_fifo_h32ReleaseState ijha_fifo_h32_rec
  by_cases hj2 : j = S.freelist_enqueue_index
  · subst hj2
    rw [getD_set_eq (by rw [List.length_set]; exact henq) _ dsRec0]
    by_cases hjs : S.freelist_enqueue_index = handle &&& S.capacity_mask
    · rw [hjs, getD_set_eq hs_lt _ dsRec0]
      exact ⟨rfl, rfl, rfl⟩
    · rw [getD_set_neq hjs _ dsRec0]
      exact ⟨rfl, rfl, rfl⟩
  · rw [getD_set_neq hj2 _ dsRec0]
    by_cases hjs : j = handle &&& S.capacity_mask
    · subst hjs
      rw [getD_set_eq hs_lt _ dsRec0]
      exact ⟨rfl, rfl, rfl⟩
    · rw [getD_set_neq hjs _ dsRec0]
      exact ⟨rfl, rfl, rfl⟩

/-- After a successful release the released slot's free bit is set (whether
or not the freelist tail aliased the slot), so the handle no longer passes
`ijha_fifo_h32_valid`. -/
theorem fifoReleaseState_free_bit (S : ijha_fifo_h32) (handle : Nat)
    (hs_lt : handle &&& S.capacity_mask < S.handles.length) :
    ((ijha_fifo_h32ReleaseState S handle).handles.getD (handle &&& S.capacity_mask)
      dsRec0).next_index &&& IJHA_FIFO_H32_NEXT_INDEX_FREE_BIT ≠ 0 := by
  have hor : ∀ x : Nat, (x ||| IJHA_FIFO_H32_NEXT_INDEX_FREE_BIT) &&&
      IJHA_FIFO_H32_NEXT_INDEX_FREE_BIT ≠ 0 := by
    intro x
    rw [Nat.and_distrib_right, Nat.and_self]
    intro hz
    have hb := congrArg (fun n => n.testBit 31) hz
    have hF : Nat.testBit IJHA_FIFO_H32_NEXT_INDEX_FREE_BIT 31 = true := by decide
    simp only [Nat.testBit_or, hF, Bool.or_true, Nat.zero_testBit] at hb
    exact absurd hb (by decide)
  unfold ijha_fifo_h32ReleaseState ijha_fifo_h32_rec
  by_cases hjs : handle &&& S.capacity_mask = S.freelist_enqueue_index
  · rw [← hjs, getD_set_eq (by rw [List.length_set]; exact hs_lt) _ dsRec0]
    exact hor _
  · rw [getD_set_neq (fun hx => hjs hx) _ dsRec0, getD_set_eq hs_lt _ dsRec0]
    exact hor _

theorem ijha_fifo_h32_valid_false_of_free (hl : List ijha_fifo_ds_h32i32_indexhandle)
    (n cm gm fe fd handle : Nat)
    (hfree : ((hl.getD (handle &&& cm) dsRec0).next_index &&&
      IJHA_FIFO_H32_NEXT_INDEX_FREE_BIT) ≠ 0) :
    ijha_fifo_h32_valid ⟨hl, n, cm, gm, fe, fd⟩ handle = false := by
  show (((hl.getD (handle &&& cm) dsRec0).handle == handle) &&
      (((hl.getD (handle &&& cm) dsRec0).next_index &&&
        IJHA_FIFO_H32_NEXT_INDEX_FREE_BIT) == 0)) = false
  have hb : (((hl.getD (handle &&& cm) dsRec0).next_index &&&
      IJHA_FIFO_H32_NEXT_INDEX_FREE_BIT) == 0) = false := beq_eq_false_iff_ne.mpr hfree
  rw [hb, Bool.and_false]

theorem dsSet_dense_preserves (l : List ijha_fifo_ds_h32i32_indexhandle) (i v j : Nat)
    (hi : i < l.length) :
    ((l.set i { l.getD i dsRec0 with dense_index := v }).getD j dsRec0).handle =
      (l.getD j dsRec0).handle ∧
    ((l.set i { l.getD i dsRec0 with dense_index := v }).getD j dsRec0).next_index =
      (l.getD j dsRec0).next_index ∧
    ((l.set i { l.getD i dsRec0 with dense_index := v }).getD j dsRec0).sparse_index =
      (l.getD j dsRec0).sparse_index := by
  by_cases hji : j = i
  · subst hji
    rw [getD_set_eq hi _ dsRec0]
    exact ⟨rfl, rfl, rfl⟩
  · rw [getD_set_neq hji _ dsRec0]
    exact ⟨rfl, rfl, rfl⟩

theorem dsSet_sparse_preserves (l : List ijha_fifo_ds_h32i32_indexhandle) (i v j : Nat)
    (hi : i < l.length) :
    ((l.set i { l.getD i dsRec0 with sparse_index := v }).getD j dsRec0).handle =
      (l.getD j dsRec0).handle ∧
    ((l.set i { l.getD i dsRec0 with sparse_index := v }).getD j dsRec0).next_index =
      (l.getD j dsRec0).next_index ∧
    ((l.set i { l.getD i dsRec0 with sparse_index := v }).getD j dsRec0).dense_index =
      (l.getD j dsRec0).dense_index := by
  by_cases hji : j = i
  · subst hji
    rw [getD_set_eq hi _ dsRec0]
    exact ⟨rfl, rfl, rfl⟩
  · rw [getD_set_neq hji _ dsRec0]
    exact ⟨rfl, rfl, rfl⟩

/-- The three-step swap-to-back record surgery of the DS release, stated over
an arbitrary record list: the removed slot is invalidated but keeps its
`next_index`, the back element's sparse slot now maps to the freed dense
index, and the freed dense slot maps back to it. -/
theorem dsSwapState (l h1 h2 hfin : List ijha_fifo_ds_h32i32_indexhandle) (s d bs : Nat)
    (hs : s < l.length) (hd : d < l.length) (hbs : bs < l.length) (hbss : bs ≠ s)
    (e1 : h1 = l.set bs { l.getD bs dsRec0 with dense_index := d })
    (e2 : h2 = h1.set d { h1.getD d dsRec0 with sparse_index := bs })
    (e3 : hfin = h2.set s { h2.getD s dsRec0 with dense_index := 4294967295 }) :
    (hfin.getD s dsRec0).dense_index = 4294967295 ∧
    (hfin.getD s dsRec0).next_index = (l.getD s dsRec0).next_index ∧
    (hfin.getD bs dsRec0).dense_index = d ∧
    (hfin.getD d dsRec0).sparse_index = bs := by
  have hl1 : h1.length = l.length := by rw [e1, List.length_set]
  have hl2 : h2.length = l.length := by rw [e2, List.length_set, hl1]
  have hd1 : d < h1.length := by rw [hl1]; exact hd
  have hs2 : s < h2.length := by rw [hl2]; exact hs
  refine ⟨?_, ?_, ?_, ?_⟩
  · rw [e3, getD_set_eq hs2 _ dsRec0]
  · rw [e3, getD_set_eq hs2 _ dsRec0]
    show (h2.getD s dsRec0).next_index = (l.getD s dsRec0).next_index
    rw [e2, (dsSet_sparse_preserves h1 d bs s hd1).2.1, e1]
    exact (dsSet_dense_preserves l bs d s hbs).2.1
  · by_cases hbd : bs = d
    · subst hbd
      rw [e3, getD_set_neq hbss _ dsRec0, e2, getD_set_eq hd1 _ dsRec0]
      show (h1.getD bs dsRec0).dense_index = bs
      rw [e1, getD_set_eq hbs _ dsRec0]
    · rw [e3, getD_set_neq hbss _ dsRec0, e2, getD_set_neq hbd _ dsRec0, e1,
        getD_set_eq hbs _ dsRec0]
  · by_cases hds : d = s
    · subst hds
      rw [e3, getD_set_eq hs2 _ dsRec0]
      show (h2.getD d dsRec0).sparse_index = bs
      rw [e2, getD_set_eq hd1 _ dsRec0]
    · rw [e3, getD_set_neq hds _ dsRec0, e2, getD_set_eq hd1 _ dsRec0]

/- ## Claim C9: DS release swap-to-back -/

/-- Claim C9 (general part): for an initialized DS allocator and a valid
handle `h` with sparse index `s`, the release goes through the base H32
release (decrementing the count to `size_after`), loads
`d_removed = record[s].dense_index`, and if `d_removed ≠ size_after` performs
the swap bookkeeping `record[back_s].dense_index = d_removed` and
`record[d_removed].sparse_index = back_s` with
`back_s = record[size_after].sparse_index`; it invalidates
`record[s].dense_index`, reports `move_from = size_after` and
`move_to = d_removed`, returns `is_back` exactly when `h` was the back, and
leaves `h` invalid. -/
theorem ijha_fifo_ds_h32i32_release_swap_to_back (S : ijha_fifo_h32) (h : Nat)
    (hlen : S.handles.length = S.capacity_mask + 1)
    (henq : S.freelist_enqueue_index < S.handles.length)
    (hvalid : ijha_fifo_h32_valid S h = true)
    (hnum1 : 1 ≤ S.num_handles)
    (hnum32 : S.num_handles < U32MOD)
    (hd_lt : (S.handles.getD (h &&& S.capacity_mask) dsRec0).dense_index < S.handles.length)
    (hbs_lt : (S.handles.getD (S.num_handles - 1) dsRec0).sparse_index < S.handles.length)
    (hnoalias : (S.handles.getD (h &&& S.capacity_mask) dsRec0).dense_index ≠ S.num_handles - 1 →
      (S.handles.getD (S.num_handles - 1) dsRec0).sparse_index ≠ h &&& S.capacity_mask) :
    (ijha_fifo_ds_h32i32_release S h).2.1 = S.num_handles - 1 ∧
    (ijha_fifo_ds_h32i32_release S h).2.2.1 =
      (S.handles.getD (h &&& S.capacity_mask) dsRec0).dense_index ∧
    (ijha_fifo_ds_h32i32_release S h).2.2.2 =
      ((S.handles.getD (h &&& S.capacity_mask) dsRec0).dense_index == S.num_handles - 1) ∧
    (ijha_fifo_ds_h32i32_release S h).1.num_handles = S.num_handles - 1 ∧
    ((ijha_fifo_ds_h32i32_release S h).1.handles.getD (h &&& S.capacity_mask)
        dsRec0).dense_index = 4294967295 ∧
    ijha_fifo_h32_valid (ijha_fifo_ds_h32i32_release S h).1 h = false ∧
    ((S.handles.getD (h &&& S.capacity_mask) dsRec0).dense_index ≠ S.num_handles - 1 →
      ((ijha_fifo_ds_h32i32_release S h).1.handles.getD
          ((S.handles.getD (S.num_handles - 1) dsRec0).sparse_index) dsRec0).dense_index =
        (S.handles.getD (h &&& S.capacity_mask) dsRec0).dense_index ∧
      ((ijha_fifo_ds_h32i32_release S h).1.handles.getD
          ((S.handles.getD (h &&& S.capacity_mask) dsRec0).dense_index) dsRec0).sparse_index =
        (S.handles.getD (S.num_handles - 1) dsRec0).sparse_index) := by
  have hs_lt : h &&& S.capacity_mask < S.handles.length := by
    rw [hlen]
    exact Nat.lt_succ_of_le Nat.and_le_right
  have hstep := ijha_fifo_h32_release_success hvalid
  have hRnum : (ijha_fifo_h32ReleaseState S h).num_handles = S.num_handles - 1 := by
    show usub32 S.num_handles 1 = S.num_handles - 1
    exact usub32_eq_sub (by omega) hnum32
  have hRlen : (ijha_fifo_h32ReleaseState S h).handles.length = S.handles.length := by
    show ((S.handles.set _ _).set _ _).length = S.handles.length
    rw [List.length_set, List.length_set]
  have hdrem : ((ijha_fifo_h32ReleaseState S h).handles.getD (h &&& S.capacity_mask)
      dsRec0).dense_index = (S.handles.getD (h &&& S.capacity_mask) dsRec0).dense_index :=
    (fifoReleaseState_preserves S h _ hs_lt henq).2.1
  have hbsrem : ((ijha_fifo_h32ReleaseState S h).handles.getD (S.num_handles - 1)
      dsRec0).sparse_index = (S.handles.getD (S.num_handles - 1) dsRec0).sparse_index :=
    (fifoReleaseState_preserves S h _ hs_lt henq).2.2
  have hfree := fifoReleaseState_free_bit S h hs_lt
  have hhandle : ((ijha_fifo_h32ReleaseState S h).handles.getD (h &&& S.capacity_mask)
      dsRec0).handle = (S.handles.getD (h &&& S.capacity_mask) dsRec0).handle :=
    (fifoReleaseState_preserves S h _ hs_lt henq).1
  have hRcm : (ijha_fifo_h32ReleaseState S h).capacity_mask = S.capacity_mask := rfl
  by_cases hback : (S.handles.getD (h &&& S.capacity_mask) dsRec0).dense_index =
      S.num_handles - 1
  · have hbeq : ((S.handles.getD (h &&& S.capacity_mask) dsRec0).dense_index ==
        S.num_handles - 1) = true := beq_iff_eq.mpr hback
    unfold ijha_fifo_ds_h32i32_release
    rw [hstep]
    simp only [hRnum, hdrem, hbsrem, hbeq, if_true, true_and, eq_self_iff_true]
    refine ⟨?_, ?_, ?_⟩
    · rw [getD_set_eq (by rw [hRlen]; exact hs_lt) _ dsRec0]
    · apply ijha_fifo_h32_valid_false_of_free
      rw [hRcm, (dsSet_dense_preserves (ijha_fifo_h32ReleaseState S h).handles
        (h &&& S.capacity_mask) 4294967295 (h &&& S.capacity_mask)
        (by rw [hRlen]; exact hs_lt)).2.1]
      exact hfree
    · intro hne
      exact absurd hback hne
  · have hbeq : ((S.handles.getD (h &&& S.capacity_mask) dsRec0).dense_index ==
        S.num_handles - 1) = false := beq_eq_false_iff_ne.mpr hback
    unfold ijha_fifo_ds_h32i32_release
    rw [hstep]
    simp only [hRnum, hdrem, hbsrem, hbeq, Bool.false_eq_true, if_false, true_and,
      eq_self_iff_true]
    have hsR : h &&& S.capacity_mask < (ijha_fifo_h32ReleaseState S h).handles.length := by
      rw [hRlen]; exact hs_lt
    have hdR : (S.handles.getD (h &&& S.capacity_mask) dsRec0).dense_index <
        (ijha_fifo_h32ReleaseState S h).handles.length := by rw [hRlen]; exact hd_lt
    have hbsR : (S.handles.getD (S.num_handles - 1) dsRec0).sparse_index <
        (ijha_fifo_h32ReleaseState S h).handles.length := by rw [hRlen]; exact hbs_lt
    have hsw := dsSwapState (ijha_fifo_h32ReleaseState S h).handles _ _ _
      (h &&& S.capacity_mask) (S.handles.getD (h &&& S.capacity_mask) dsRec0).dense_index
      (S.handles.getD (S.num_handles - 1) dsRec0).sparse_index hsR hdR hbsR
      (hnoalias hback) rfl rfl rfl
    refine ⟨hsw.1, ?_, ?_⟩
    · apply ijha_fifo_h32_valid_false_of_free
      rw [hRcm, hsw.2.1]
      exact hfree
    · intro _
      exact ⟨hsw.2.2.1, hsw.2.2.2⟩

def ijhaC9acq (S : ijha_fifo_h32) : ijha_fifo_h32 × Nat × Nat :=
  ijha_fifo_ds_h32i32_acquire_mask S 0

def ijhaC9start4 : ijha_fifo_h32 := ijha_fifo_ds_h32i32_init 4 0 (List.replicate 4 dsRec0)

/-- Claim C9, counterexample to the four-handle `N=4` scenario: a DS allocator
initialized for 4 handles admits only 3 live handles at once (the base FIFO
freelist always keeps one slot in reserve, full when `num == capacity_mask`),
so the first three acquires hand out dense indices 0, 1, 2 and the fourth
acquire fails with the invalid index: the handles `Ha..Hd` with dense indices
0..3 of the claimed scenario cannot exist. -/
theorem ijha_fifo_ds_h32i32_n4_fourth_acquire_fails :
    (ijhaC9acq (ijhaC9acq (ijhaC9acq ijhaC9start4).1).1).2.2 = 2 ∧
    (ijhaC9acq (ijhaC9acq (ijhaC9acq (ijhaC9acq ijhaC9start4).1).1).1).2.2 =
      IJHA_FIFO_H32_INVALID_INDEX := by decide

def ijhaC9start : ijha_fifo_h32 := ijha_fifo_ds_h32i32_init 5 0 (List.replicate 8 dsRec0)

def ijhaC9a1 : ijha_fifo_h32 × Nat × Nat := ijhaC9acq ijhaC9start

def ijhaC9a2 : ijha_fifo_h32 × Nat × Nat := ijhaC9acq ijhaC9a1.1

def ijhaC9a3 : ijha_fifo_h32 × Nat × Nat := ijhaC9acq ijhaC9a2.1

def ijhaC9a4 : ijha_fifo_h32 × Nat × Nat := ijhaC9acq ijhaC9a3.1

def ijhaC9s4 : ijha_fifo_h32 := ijhaC9a4.1

def ijhaC9hb : Nat := ijhaC9a2.2.1

def ijhaC9hc : Nat := ijhaC9a3.2.1

def ijhaC9hd : Nat := ijhaC9a4.2.1

def ijhaC9rel : ijha_fifo_h32 × Nat × Nat × Bool := ijha_fifo_ds_h32i32_release ijhaC9s4 ijhaC9hb

/-- Claim C9, witness: a DS allocator initialized for 5 handles (8 slots, 7
usable); after four acquires `Ha..Hd` occupy dense indices 0..3; releasing
`Hb` satisfies every hypothesis of the swap-to-back theorem, and concretely
gives `move_from = 3`, `move_to = 1`, `is_back = false`, with
`dense_index(Hd) = 1` and `dense_index(Hc) = 2` afterwards. -/
theorem ijha_fifo_ds_h32i32_release_swap_to_back_witness :
    ijha_fifo_h32_valid ijhaC9s4 ijhaC9hb = true ∧
    (ijhaC9rel.2.1 = ijhaC9s4.num_handles - 1 ∧
     ijhaC9rel.2.2.1 =
       (ijhaC9s4.handles.getD (ijhaC9hb &&& ijhaC9s4.capacity_mask) dsRec0).dense_index ∧
     ijhaC9rel.2.2.2 =
       ((ijhaC9s4.handles.getD (ijhaC9hb &&& ijhaC9s4.capacity_mask) dsRec0).dense_index ==
         ijhaC9s4.num_handles - 1) ∧
     ijhaC9rel.1.num_handles = ijhaC9s4.num_handles - 1 ∧
     (ijhaC9rel.1.handles.getD (ijhaC9hb &&& ijhaC9s4.capacity_mask)
         dsRec0).dense_index = 4294967295 ∧
     ijha_fifo_h32_valid ijhaC9rel.1 ijhaC9hb = false ∧
     ((ijhaC9s4.handles.getD (ijhaC9hb &&& ijhaC9s4.capacity_mask) dsRec0).dense_index ≠
         ijhaC9s4.num_handles - 1 →
       (ijhaC9rel.1.handles.getD
           ((ijhaC9s4.handles.getD (ijhaC9s4.num_handles - 1) dsRec0).sparse_index)
           dsRec0).dense_index =
         (ijhaC9s4.handles.getD (ijhaC9hb &&& ijhaC9s4.capacity_mask) dsRec0).dense_index ∧
       (ijhaC9rel.1.handles.getD
           ((ijhaC9s4.handles.getD (ijhaC9hb &&& ijhaC9s4.capacity_mask) dsRec0).dense_index)
           dsRec0).sparse_index =
         (ijhaC9s4.handles.getD (ijhaC9s4.num_handles - 1) dsRec0).sparse_index)) ∧
    ijhaC9rel.2.1 = 3 ∧ ijhaC9rel.2.2.1 = 1 ∧ ijhaC9rel.2.2.2 = false ∧
    ijha_fifo_ds_h32i32_dense_index ijhaC9rel.1 ijhaC9hd = 1 ∧
    ijha_fifo_ds_h32i32_dense_index ijhaC9rel.1 ijhaC9hc = 2 :=
  ⟨by decide,
   ijha_fifo_ds_h32i32_release_swap_to_back ijhaC9s4 ijhaC9hb (by decide) (by decide)
     (by decide) (by decide) (by decide) (by decide) (by decide) (by decide),
   by decide, by decide, by decide, by decide, by decide⟩

/- ## Claim C7: the FIFO freelist queue discipline of ijha_h32 -/

theorem land_rotate (a b c : Nat) : a &&& b &&& c = a &&& c &&& b := by
  rw [Nat.and_assoc, Nat.and_comm b c, ← Nat.and_assoc]

theorem usub32_lt (a b : Nat) : usub32 a b < U32MOD := by
  simp only [usub32]
  exact Nat.mod_lt _ (by norm_num [U32MOD])

theorem uadd32_lt (a b : Nat) : uadd32 a b < U32MOD := by
  simp only [uadd32]
  exact Nat.mod_lt _ (by norm_num [U32MOD])

theorem getD_mem_of_lt {l : List Nat} {i : Nat} (h : i < l.length) : l.getD i 0 ∈ l := by
  rw [List.getD_eq_getElem l 0 h]
  exact List.getElem_mem h

/-- `ijha_h32_valid` agrees with the release guard on 32-bit data. -/
theorem ijha_h32_validGuard_iff (A : ijha_h32) (h : Nat) (hh : h < U32MOD)
    (hslot : ijha_h32_slot A (h &&& A.capacity_mask) < U32MOD) :
    ijha_h32_valid A h = true ↔ ijha_h32ReleaseGuard A h := by
  unfold ijha_h32_valid ijha_h32_valid_mask ijha_h32_in_use ijha_h32ReleaseGuard
  rw [land_full32_of_lt hh, land_full32_of_lt hslot]
  simp [and_assoc]

/-- Every slot word of a well-formed allocator is a 32-bit value. -/
theorem slot_lt_of_wf {A : ijha_h32} (hwf : A.wf = true) (i : Nat) :
    ijha_h32_slot A i < U32MOD := by
  have hwords := ((ijha_h32.wf_iff A).mp hwf).2.1
  unfold ijha_h32_slot
  by_cases hi : i < A.handles.length
  · exact hwords _ (getD_mem_of_lt hi)
  · rw [List.getD_eq_default _ _ (Nat.le_of_not_lt hi)]
    norm_num [U32MOD]

/-- The freelist queue discipline that `ijha_h32_reset` establishes for a
FIFO-policy allocator and that acquire/release maintain: the free slot indices
form a duplicate-free chain `q` threaded through the stored words' low bits,
starting at the dequeue cursor and ending at the enqueue cursor, all with the
in-use bit clear, and the allocator's size accounts for every slot outside
the chain. -/
structure ijha_h32FifoFreelist (A : ijha_h32) (q : List Nat) : Prop where
  wf : A.wf = true
  fifo_policy : A.flags_num_userflag_bits &&& 192 ≠ 64
  is_fifo : ijha_h32_is_fifo A = true
  nonempty : q ≠ []
  head_eq : q.head? = some A.freelist_dequeue_index
  last_eq : q.getLast? = some A.freelist_enqueue_index
  chain : ∀ j ∈ List.range (q.length - 1),
    ijha_h32_slot A (q.getD j 0) &&& A.capacity_mask = q.getD (j + 1) 0
  free_clear : ∀ i ∈ q, ijha_h32_slot A i &&& A.in_use_bit = 0
  bounded : ∀ i ∈ q, i < A.capacity
  nodup : q.Nodup
  size_eq : A.size + q.length = A.capacity

/-- Fold of `ijha_h32_release` (serial dispatch) over a list of handles. -/
def ijha_h32_releaseSeq (A : ijha_h32) (hs : List Nat) : ijha_h32 :=
  hs.foldl (fun B hh => (ijha_h32_release_serial B hh).1) A

/-- The indices returned by `k` successive serial acquires (userflags 0). -/
def ijha_h32_acquireIndices : ijha_h32 → Nat → List Nat
  | _, 0 => []
  | A, k + 1 =>
    (ijha_h32__acquire_userflags_lifo_fifo A 0).2.2 ::
      ijha_h32_acquireIndices (ijha_h32__acquire_userflags_lifo_fifo A 0).1 k

/-- A successful FIFO release appends the released index to the freelist
queue, preserves the queue discipline, and keeps every other valid handle
valid. -/
theorem ijha_h32_fifo_release_invariant (A : ijha_h32) (q : List Nat) (h : Nat)
    (hinv : ijha_h32FifoFreelist A q) (hh : h < U32MOD)
    (hv : ijha_h32_valid A h = true) :
    ijha_h32_release_serial A h = (ijha_h32ReleaseFifoState A h, h &&& A.capacity_mask) ∧
    ijha_h32FifoFreelist (ijha_h32ReleaseFifoState A h) (q ++ [h &&& A.capacity_mask]) ∧
    (∀ h', h' < U32MOD → ijha_h32_valid A h' = true →
      h' &&& A.capacity_mask ≠ h &&& A.capacity_mask →
      ijha_h32_valid (ijha_h32ReleaseFifoState A h) h' = true) := by
  obtain ⟨hlen, hwords, hcaple, hmaskform, hmask32, hcap32, hsize32, hiu0, hiu32,
    hgen32, huf32, hiucap, hiugen, hiuuf, hgencap, hufcap, hufgen⟩ :=
    (ijha_h32.wf_iff A).mp hinv.wf
  have hg := (ijha_h32_validGuard_iff A h hh (slot_lt_of_wf hinv.wf _)).mp hv
  have hidxlen : h &&& A.capacity_mask < A.handles.length := by rw [hlen]; exact hg.1
  have hidxmask : (h &&& A.capacity_mask) &&& A.capacity_mask = h &&& A.capacity_mask := by
    rw [Nat.and_assoc, Nat.and_self]
  have hidxU : h &&& A.capacity_mask < U32MOD := land32_lt_left hh
  have hidxiu : (h &&& A.capacity_mask) &&& A.in_use_bit = 0 := by
    rw [Nat.and_assoc, land_comm_zero hiucap, Nat.and_zero]
  have hidx_notin : (h &&& A.capacity_mask) ∉ q := by
    intro hm
    have hc := hinv.free_clear _ hm
    rw [hg.2.2] at hc
    exact hg.2.1 hc
  have hql : q.getLast hinv.nonempty = A.freelist_enqueue_index := by
    have hlast := hinv.last_eq
    rw [List.getLast?_eq_getLast q hinv.nonempty] at hlast
    exact Option.some_injective _ hlast
  have henq_mem : A.freelist_enqueue_index ∈ q := hql ▸ List.getLast_mem hinv.nonempty
  have henq_ne_idx : A.freelist_enqueue_index ≠ h &&& A.capacity_mask := by
    intro he
    exact hidx_notin (he ▸ henq_mem)
  have henq_len : A.freelist_enqueue_index < A.handles.length := by
    rw [hlen]; exact hinv.bounded _ henq_mem
  have hser : ijha_h32_release_serial A h =
      (ijha_h32ReleaseFifoState A h, h &&& A.capacity_mask) := by
    rw [ijha_h32_release_serial_eq_fifo hinv.fifo_policy, ijha_h32__release_fifo_success hg]
  have hslotB_enq : ijha_h32_slot (ijha_h32ReleaseFifoState A h) A.freelist_enqueue_index =
      (ijha_h32_slot A A.freelist_enqueue_index &&& compl32 A.capacity_mask) |||
        (h &&& A.capacity_mask) := by
    simp only [ijha_h32ReleaseFifoState, ijha_h32_slot]
    rw [getD_set_self (by rw [List.length_set]; exact henq_len) _,
      getD_set_ne henq_ne_idx _]
  have hslotB_idx : ijha_h32_slot (ijha_h32ReleaseFifoState A h) (h &&& A.capacity_mask) =
      ijha_h32_slot A (h &&& A.capacity_mask) &&& compl32 A.in_use_bit := by
    simp only [ijha_h32ReleaseFifoState, ijha_h32_slot]
    rw [getD_set_ne (fun he => henq_ne_idx he.symm) _]
    exact getD_set_self hidxlen _
  have hslotB_other : ∀ j, j ≠ A.freelist_enqueue_index → j ≠ h &&& A.capacity_mask →
      ijha_h32_slot (ijha_h32ReleaseFifoState A h) j = ijha_h32_slot A j := by
    intro j hj1 hj2
    simp only [ijha_h32ReleaseFifoState, ijha_h32_slot]
    rw [getD_set_ne hj1 _, getD_set_ne hj2 _]
  have htail_mask : ((ijha_h32_slot A A.freelist_enqueue_index &&& compl32 A.capacity_mask) |||
      (h &&& A.capacity_mask)) &&& A.capacity_mask = h &&& A.capacity_mask := by
    rw [Nat.and_distrib_right, land_compl32_land_right hmask32, Nat.zero_or]
    exact hidxmask
  have htail_iu : ((ijha_h32_slot A A.freelist_enqueue_index &&& compl32 A.capacity_mask) |||
      (h &&& A.capacity_mask)) &&& A.in_use_bit = 0 := by
    rw [Nat.and_distrib_right, land_rotate, hinv.free_clear _ henq_mem, Nat.zero_and, hidxiu]
    decide
  have hcleared_iu : (ijha_h32_slot A (h &&& A.capacity_mask) &&& compl32 A.in_use_bit) &&&
      A.in_use_bit = 0 := land_compl32_land_right hiu32
  have hqlen_lt : q.length < A.capacity := by
    have hsub : q.toFinset ⊆ Finset.range A.capacity := by
      intro x hx
      rw [List.mem_toFinset] at hx
      exact Finset.mem_range.mpr (hinv.bounded x hx)
    have hss : q.toFinset ⊂ Finset.range A.capacity := by
      refine ⟨hsub, fun hsup => hidx_notin ?_⟩
      have hxm := hsup (Finset.mem_range.mpr hg.1)
      rwa [List.mem_toFinset] at hxm
    have hcard := Finset.card_lt_card hss
    rwa [List.toFinset_card_of_nodup hinv.nodup, Finset.card_range] at hcard
  have hsize1 : 1 ≤ A.size := by
    have hsq := hinv.size_eq
    omega
  have hsizesub : usub32 A.size 1 = A.size - 1 := usub32_eq_sub hsize1 hsize32
  have hwfB : (ijha_h32ReleaseFifoState A h).wf = true := by
    rw [ijha_h32.wf_iff]
    refine ⟨?_, ?_, hcaple, hmaskform, hmask32, hcap32, ?_, hiu0, hiu32, hgen32, huf32,
      hiucap, hiugen, hiuuf, hgencap, hufcap, hufgen⟩
    · show ((A.handles.set _ _).set _ _).length = A.capacity
      rw [List.length_set, List.length_set]
      exact hlen
    · intro w hw
      rcases List.mem_or_eq_of_mem_set hw with hw1 | hweq
      · rcases List.mem_or_eq_of_mem_set hw1 with hw2 | hweq2
        · exact hwords _ hw2
        · rw [hweq2]
          exact land32_lt_left (slot_lt_of_wf hinv.wf _)
      · rw [hweq]
        exact lor32_lt (Nat.lt_of_le_of_lt Nat.and_le_right (compl32_lt hmask32)) hidxU
    · show usub32 A.size 1 < U32MOD
      exact usub32_lt _ _
  refine ⟨hser, ?_, ?_⟩
  · refine ⟨hwfB, hinv.fifo_policy, hinv.is_fifo, by simp, ?_, ?_, ?_, ?_, ?_, ?_, ?_⟩
    · show (q ++ [h &&& A.capacity_mask]).head? = some A.freelist_dequeue_index
      cases hq : q with
      | nil => exact absurd hq hinv.nonempty
      | cons a t =>
        have hhead := hinv.head_eq
        rw [hq] at hhead
        exact hhead
    · show (q ++ [h &&& A.capacity_mask]).getLast? = some (h &&& A.capacity_mask)
      exact List.getLast?_concat q
    · intro j hj
      rw [List.mem_range, List.length_append, List.length_singleton] at hj
      have hjq : j < q.length := by omega
      have henq_getD : q.getD (q.length - 1) 0 = A.freelist_enqueue_index := by
        have hlast := hinv.last_eq
        rw [List.getLast?_eq_getElem?] at hlast
        rw [List.getD_eq_getElem?_getD, hlast]
        rfl
      rw [List.getD_append _ _ _ _ hjq]
      by_cases hjl : j + 1 < q.length
      · rw [List.getD_append _ _ _ _ hjl]
        have hmem : q.getD j 0 ∈ q := getD_mem_of_lt hjq
        have hne1 : q.getD j 0 ≠ A.freelist_enqueue_index := by
          intro he
          have hjj : q.getD j 0 = q.getD (q.length - 1) 0 := by
            rw [he, henq_getD]
          rw [List.getD_eq_getElem q 0 hjq, List.getD_eq_getElem q 0 (by omega)] at hjj
          have hji := (List.Nodup.getElem_inj_iff hinv.nodup).mp hjj
          omega
        have hne2 : q.getD j 0 ≠ h &&& A.capacity_mask := by
          intro he
          exact hidx_notin (he ▸ hmem)
        rw [hslotB_other _ hne1 hne2]
        exact hinv.chain j (List.mem_range.mpr (by omega))
      · have hj' : j = q.length - 1 := by omega
        rw [hj', henq_getD, hslotB_enq, List.getD_append_right _ _ _ _ (by omega)]
        have hsub0 : q.length - 1 + 1 - q.length = 0 := by omega
        rw [hsub0]
        exact htail_mask
    · intro i hi
      rcases List.mem_append.mp hi with hiq | hisingle
      · by_cases hie : i = A.freelist_enqueue_index
        · rw [hie, hslotB_enq]
          exact htail_iu
        · have hii : i ≠ h &&& A.capacity_mask := by
            intro he
            exact hidx_notin (he ▸ hiq)
          rw [hslotB_other i hie hii]
          exact hinv.free_clear i hiq
      · rw [List.mem_singleton] at hisingle
        rw [hisingle, hslotB_idx]
        exact hcleared_iu
    · intro i hi
      rcases List.mem_append.mp hi with hiq | hisingle
      · exact hinv.bounded i hiq
      · rw [List.mem_singleton] at hisingle
        rw [hisingle]
        exact hg.1
    · rw [List.nodup_append]
      refine ⟨hinv.nodup, List.nodup_singleton _, ?_⟩
      intro a ha hb
      rw [List.mem_singleton] at hb
      exact hidx_notin (hb ▸ ha)
    · show usub32 A.size 1 + (q ++ [h &&& A.capacity_mask]).length = A.capacity
      rw [hsizesub, List.length_append, List.length_singleton]
      have hsq := hinv.size_eq
      omega
  · intro h' hh' hv' hne
    have hg' := (ijha_h32_validGuard_iff A h' hh' (slot_lt_of_wf hinv.wf _)).mp hv'
    have hne_enq : h' &&& A.capacity_mask ≠ A.freelist_enqueue_index := by
      intro he
      have hc := hinv.free_clear _ henq_mem
      rw [← he, hg'.2.2] at hc
      exact hg'.2.1 hc
    have hslotkeep := hslotB_other (h' &&& A.capacity_mask) hne_enq hne
    refine (ijha_h32_validGuard_iff (ijha_h32ReleaseFifoState A h) h' hh'
      (slot_lt_of_wf hwfB _)).mpr ⟨hg'.1, hg'.2.1, ?_⟩
    show ijha_h32_slot (ijha_h32ReleaseFifoState A h) (h' &&& A.capacity_mask) = h'
    rw [hslotkeep]
    exact hg'.2.2

/-- A serial acquire on a FIFO allocator with at least two free slots pops the
head of the freelist queue and preserves the queue discipline on the tail. -/
theorem ijha_h32_fifo_acquire_invariant (A : ijha_h32) (q : List Nat)
    (hinv : ijha_h32FifoFreelist A q) (hq2 : 2 ≤ q.length) :
    (ijha_h32__acquire_userflags_lifo_fifo A 0).2.2 = q.getD 0 0 ∧
    ijha_h32FifoFreelist (ijha_h32__acquire_userflags_lifo_fifo A 0).1 q.tail := by
  obtain ⟨hlen, hwords, hcaple, hmaskform, hmask32, hcap32, hsize32, hiu0, hiu32,
    hgen32, huf32, hiucap, hiugen, hiuuf, hgencap, hufcap, hufgen⟩ :=
    (ijha_h32.wf_iff A).mp hinv.wf
  obtain ⟨a, q1, rfl⟩ : ∃ a q1, q = a :: q1 := by
    cases q with
    | nil => simp at hq2
    | cons a q1 => exact ⟨a, q1, rfl⟩
  obtain ⟨b, t, rfl⟩ : ∃ b t, q1 = b :: t := by
    cases q1 with
    | nil => simp at hq2
    | cons b t => exact ⟨b, t, rfl⟩
  have ha_dq : a = A.freelist_dequeue_index := by
    have hh := hinv.head_eq
    rw [List.head?_cons] at hh
    exact Option.some.inj hh
  have ha_mem : a ∈ a :: b :: t := by simp
  have hchain0 : ijha_h32_slot A a &&& A.capacity_mask = b := by
    have hc := hinv.chain 0 (List.mem_range.mpr (by simp))
    rw [List.getD_cons_zero, List.getD_cons_succ, List.getD_cons_zero] at hc
    exact hc
  have hcapge : 2 ≤ A.capacity := by
    have hs := hinv.size_eq
    simp [List.length_cons] at hs
    omega
  have hmaxn : usub32 A.capacity (if ijha_h32_is_fifo A then 1 else 0) = A.capacity - 1 := by
    rw [if_pos hinv.is_fifo]
    exact usub32_eq_sub (by omega) hcap32
  have hroom : A.size ≠ usub32 A.capacity (if ijha_h32_is_fifo A then 1 else 0) := by
    rw [hmaxn]
    have hs := hinv.size_eq
    simp [List.length_cons] at hs
    omega
  have hsucc := @ijha_h32_acquire_success A 0 hroom
  have hBdq : (ijha_h32AcquireState A 0).freelist_dequeue_index = b := by
    show ijha_h32_slot A A.freelist_dequeue_index &&& A.capacity_mask = b
    rw [← ha_dq]
    exact hchain0
  have ha_notin : a ∉ b :: t := (List.nodup_cons.mp hinv.nodup).1
  have hslotB : ∀ j, j ≠ a →
      ijha_h32_slot (ijha_h32AcquireState A 0) j = ijha_h32_slot A j := by
    intro j hj
    show (A.handles.set A.freelist_dequeue_index _).getD j 0 = _
    rw [← ha_dq]
    exact getD_set_ne hj _
  have hwfB : (ijha_h32AcquireState A 0).wf = true := by
    rw [ijha_h32.wf_iff]
    refine ⟨?_, ?_, hcaple, hmaskform, hmask32, hcap32, ?_, hiu0, hiu32, hgen32, huf32,
      hiucap, hiugen, hiuuf, hgencap, hufcap, hufgen⟩
    · show (A.handles.set _ _).length = A.capacity
      rw [List.length_set]
      exact hlen
    · intro w hw
      rcases List.mem_or_eq_of_mem_set hw with hw1 | hweq
      · exact hwords _ hw1
      · rw [hweq]
        show ijha_h32AcquireHandle A 0 < U32MOD
        unfold ijha_h32AcquireHandle
        refine lor32_lt (lor32_lt (lor32_lt ?_ ?_) hiu32) ?_
        · norm_num [U32MOD]
        · exact land32_lt_left hgen32
        · rw [← ha_dq]
          exact Nat.lt_trans (hinv.bounded a ha_mem) hcap32
    · show uadd32 A.size 1 < U32MOD
      exact uadd32_lt _ _
  refine ⟨?_, ?_⟩
  · rw [hsucc]
    show A.freelist_dequeue_index = a
    exact ha_dq.symm
  · rw [hsucc]
    refine ⟨hwfB, hinv.fifo_policy, hinv.is_fifo, by simp, ?_, ?_, ?_, ?_, ?_, ?_, ?_⟩
    · show (b :: t).head? = some (ijha_h32AcquireState A 0).freelist_dequeue_index
      rw [List.head?_cons, hBdq]
    · show (b :: t).getLast? = some (ijha_h32AcquireState A 0).freelist_enqueue_index
      have hl := hinv.last_eq
      rw [List.getLast?_cons_cons] at hl
      exact hl
    · intro j hj
      rw [List.mem_range] at hj
      simp only [List.tail_cons, List.length_cons] at hj
      have hjt : j < t.length + 1 := by omega
      have hmem : (b :: t).getD j 0 ∈ b :: t :=
        getD_mem_of_lt (by rw [List.length_cons]; omega)
      have hne : (b :: t).getD j 0 ≠ a := fun he => ha_notin (he ▸ hmem)
      show ijha_h32_slot (ijha_h32AcquireState A 0) ((b :: t).getD j 0) &&&
          A.capacity_mask = (b :: t).getD (j + 1) 0
      rw [hslotB _ hne]
      have hc := hinv.chain (j + 1)
        (List.mem_range.mpr (by rw [List.length_cons, List.length_cons]; omega))
      rw [List.getD_cons_succ, List.getD_cons_succ] at hc
      exact hc
    · intro i hi
      have hia : i ≠ a := fun he => ha_notin (he ▸ hi)
      show ijha_h32_slot (ijha_h32AcquireState A 0) i &&& A.in_use_bit = 0
      rw [hslotB _ hia]
      exact hinv.free_clear i (List.mem_cons_of_mem a hi)
    · intro i hi
      exact hinv.bounded i (List.mem_cons_of_mem a hi)
    · exact (List.nodup_cons.mp hinv.nodup).2
    · show uadd32 A.size 1 + (b :: t).length = A.capacity
      have hs := hinv.size_eq
      simp only [List.length_cons] at hs ⊢
      rw [uadd32_eq_add (by omega)]
      omega

/-- Releasing a list of distinct valid handles appends their indices, in
release order, to the freelist queue. -/
theorem ijha_h32_releaseSeq_invariant (hs : List Nat) (A : ijha_h32) (q : List Nat)
    (hinv : ijha_h32FifoFreelist A q)
    (hbound : ∀ h ∈ hs, h < U32MOD)
    (hval : ∀ h ∈ hs, ijha_h32_valid A h = true)
    (hnd : (hs.map (fun h => h &&& A.capacity_mask)).Nodup) :
    ijha_h32FifoFreelist (ijha_h32_releaseSeq A hs)
      (q ++ hs.map (fun h => h &&& A.capacity_mask)) := by
  induction hs generalizing A q with
  | nil => simpa using hinv
  | cons h t ih =>
    have hstep := ijha_h32_fifo_release_invariant A q h hinv
      (hbound h (List.mem_cons_self h t)) (hval h (List.mem_cons_self h t))
    have hfold : ijha_h32_releaseSeq A (h :: t) =
        ijha_h32_releaseSeq (ijha_h32ReleaseFifoState A h) t := by
      show (h :: t).foldl (fun B hh => (ijha_h32_release_serial B hh).1) A = _
      rw [List.foldl_cons, hstep.1]
      rfl
    have hmapcons : (h :: t).map (fun x => x &&& A.capacity_mask) =
        (h &&& A.capacity_mask) :: t.map (fun x => x &&& A.capacity_mask) := rfl
    have hnd' := hnd
    rw [hmapcons, List.nodup_cons] at hnd'
    rw [hfold, hmapcons, List.append_cons]
    refine ih (ijha_h32ReleaseFifoState A h) (q ++ [h &&& A.capacity_mask]) hstep.2.1
      ?_ ?_ ?_
    · intro x hx
      exact hbound x (List.mem_cons_of_mem h hx)
    · intro x hx
      refine hstep.2.2 x (hbound x (List.mem_cons_of_mem h hx))
        (hval x (List.mem_cons_of_mem h hx)) ?_
      intro he
      refine hnd'.1 ?_
      rw [← he]
      exact List.mem_map_of_mem _ hx
    · exact hnd'.2

/-- `k` successive acquires on a FIFO allocator with more than `k` free slots
return exactly the first `k` entries of the freelist queue. -/
theorem ijha_h32_acquireIndices_take (k : Nat) (A : ijha_h32) (Q : List Nat)
    (hinv : ijha_h32FifoFreelist A Q) (hk : k < Q.length) :
    ijha_h32_acquireIndices A k = Q.take k := by
  induction k generalizing A Q with
  | zero => simp [ijha_h32_acquireIndices]
  | succ k ih =>
    have hq2 : 2 ≤ Q.length := by omega
    have hstep := ijha_h32_fifo_acquire_invariant A Q hinv hq2
    show (ijha_h32__acquire_userflags_lifo_fifo A 0).2.2 ::
        ijha_h32_acquireIndices (ijha_h32__acquire_userflags_lifo_fifo A 0).1 k =
      Q.take (k + 1)
    rw [hstep.1, ih _ _ hstep.2 (by rw [List.length_tail]; omega)]
    cases Q with
    | nil => simp at hk
    | cons a t => rfl

/-- Claim C7 as amended: on a FIFO-policy `ijha_h32` allocator whose free
slots form the freelist queue `q` (as established by reset and maintained by
every acquire and release), releasing the valid handles `h1, ..., hk` (with
pairwise distinct indices) and then acquiring `k` times yields the first `k`
entries of `q ++ [index(h1), ..., index(hk)]`: released indices are reused
in release order, but only after the `|q| ≥ 1` indices that were already
free - not starting at `index(h1)` as claimed. -/
theorem ijha_h32_fifo_queue_order (A : ijha_h32) (q hs : List Nat)
    (hinv : ijha_h32FifoFreelist A q)
    (hbound : ∀ h ∈ hs, h < U32MOD)
    (hval : ∀ h ∈ hs, ijha_h32_valid A h = true)
    (hnd : (hs.map (fun h => h &&& A.capacity_mask)).Nodup) :
    ijha_h32_acquireIndices (ijha_h32_releaseSeq A hs) hs.length =
      (q ++ hs.map (fun h => h &&& A.capacity_mask)).take hs.length := by
  have hfold := ijha_h32_releaseSeq_invariant hs A q hinv hbound hval hnd
  refine ijha_h32_acquireIndices_take hs.length _ _ hfold ?_
  rw [List.length_append, List.length_map]
  have hq1 : 1 ≤ q.length := List.length_pos.mpr hinv.nonempty
  omega

/-- Witness for the amended C7 at the `N=2` FIFO allocator: after one acquire
the free queue is `[1]`; releasing the acquired handle (index 0) and then
acquiring once returns index `1`, the head of the extended queue `[1, 0]`. -/
theorem ijha_h32_fifo_queue_order_witness :
    ijha_h32FifoFreelist ijhaC7acq1.1 [1] ∧
    ijha_h32_acquireIndices (ijha_h32_releaseSeq ijhaC7acq1.1 [ijhaC7acq1.2.1])
        [ijhaC7acq1.2.1].length =
      ([1] ++ [ijhaC7acq1.2.1].map (fun h => h &&& ijhaC7acq1.1.capacity_mask)).take
        [ijhaC7acq1.2.1].length ∧
    ijha_h32_acquireIndices (ijha_h32_releaseSeq ijhaC7acq1.1 [ijhaC7acq1.2.1]) 1 = [1] :=
  ⟨⟨by decide, by decide, by decide, by decide, by decide, by decide, by decide, by decide,
    by decide, by decide, by decide⟩,
   ijha_h32_fifo_queue_order ijhaC7acq1.1 [1] [ijhaC7acq1.2.1]
     ⟨by decide, by decide, by decide, by decide, by decide, by decide, by decide, by decide,
      by decide, by decide, by decide⟩
     (by decide) (by decide) (by decide),
   by decide⟩
